import Mathlib

/-!
Verification of the AssemblyHandler virtual machine (src/AssemblyHandler.py)
against its natural-language specification.

The machine state (class AssemblyHandler) is embedded as a structure; the
register dictionary is an association list with Python dict semantics
(assignment to an absent key inserts it, lookup of an absent key is a
KeyError), memory is a Python list (negative indices wrap from the end,
indices beyond either end raise IndexError).  A Python uncaught exception is
modelled as the Option value none; printed lines accumulate in the output
field.
-/

set_option maxRecDepth 100000

/-- The overflow bound 2 to the power 42 used by every magnitude check. -/
def BOUND : Int := 2 ^ 42

/-- The single diagnostic line printed on every fault. -/
def FAULTMSG : String := "I\x27m afraid I can\x27t do that"

/-- The line printed by the HALT instruction. -/
def HALTMSG : String := "Execution halted"

/-- Python dict lookup: first binding of the key, none models KeyError. -/
def dictGet : List (String × Int) → String → Option Int
  | [], _ => none
  | (k, v) :: d, key => if k = key then some v else dictGet d key

/-- Python dict assignment: update the binding in place, or append a new one. -/
def dictSet : List (String × Int) → String → Int → List (String × Int)
  | [], key, val => [(key, val)]
  | (k, v) :: d, key, val =>
      if k = key then (k, val) :: d else (k, v) :: dictSet d key val

/-- Resolve a Python list index of a list of the given length: non-negative
indices are used directly, negative indices count from the end, anything
else is an IndexError (none). -/
def pyIdxOf (len : Nat) (i : Int) : Option Nat :=
  if 0 ≤ i ∧ i < (len : Int) then some i.toNat
  else if -(len : Int) ≤ i ∧ i < 0 then some ((len : Int) + i).toNat
  else none

/-- Python list read with wrap-around for negative indices. -/
def pyListGet {α : Type} (l : List α) (i : Int) : Option α :=
  (pyIdxOf l.length i).bind (fun n => l.get? n)

/-- The memory array [0] * 2048: a fixed size and the cell contents, with
Python list indexing semantics. -/
structure MemArray where
  size : Nat
  get : Nat → Int

/-- Python list read on the memory array: wrap-around for negative
indices, IndexError (none) outside [-size, size). -/
def memRead (m : MemArray) (i : Int) : Option Int :=
  (pyIdxOf m.size i).map m.get

/-- Python list element assignment on the memory array, with the same
index semantics as memRead. -/
def memWrite (m : MemArray) (i : Int) (v : Int) : Option MemArray :=
  (pyIdxOf m.size i).map (fun n => ⟨m.size, fun j => if j = n then v else m.get j⟩)

/-- Split a character list at blanks (words keep their order). -/
def splitWords : List Char → List (List Char)
  | [] => [[]]
  | c :: cs =>
    let r := splitWords cs
    if c = ' ' then [] :: r
    else
      match r with
      | [] => [[c]]
      | w :: ws => (c :: w) :: ws

/-- Python str.split with no argument: split on blanks, drop empty pieces. -/
def pySplit (s : String) : List String :=
  ((splitWords s.data).map (fun w => String.mk w)).filter (fun t => t ≠ "")

/-- Read a non-empty run of decimal digits as a number. -/
def readNatAux : List Char → Nat → Option Nat
  | [], acc => some acc
  | c :: cs, acc =>
    if c.isDigit then readNatAux cs (acc * 10 + (c.toNat - 48)) else none

/-- Read a decimal numeral; none when empty or not all digits. -/
def readNat : List Char → Option Nat
  | [] => none
  | ds => readNatAux ds 0

/-- Python int() on a decimal literal with an optional minus sign; none
models ValueError. -/
def pyToInt (s : String) : Option Int :=
  match s.data with
  | '-' :: ds => (readNat ds).map (fun n => -(n : Int))
  | ds => (readNat ds).map (fun n => (n : Int))

/-- The interpreter state: the fields of class AssemblyHandler plus the
stream of printed lines. -/
structure AssemblyHandler where
  memory : MemArray
  short_term : List (String × Int)
  commands : List String
  error : Bool
  output : List String

/-- A state with the error flag raised and the fault diagnostic printed. -/
def faulted (h : AssemblyHandler) : AssemblyHandler :=
  { h with error := true, output := h.output ++ [FAULTMSG] }

/-- The two trailing statements of parse_command: increment P, increment X. -/
def incPX (h : AssemblyHandler) : Option AssemblyHandler :=
  (dictGet h.short_term "P").bind (fun p =>
    let h1 : AssemblyHandler :=
      { h with short_term := dictSet h.short_term "P" (p + 1) }
    (dictGet h1.short_term "X").bind (fun x =>
      some { h1 with short_term := dictSet h1.short_term "X" (x + 1) }))

/-- The opcode dispatch of parse_command, before the trailing increments.
Returns (skip, state): skip is true when the Python code runs a return
statement (or HALT), so that the trailing increments are not executed. -/
def parse_inner (parts : List String) (h : AssemblyHandler) :
    Option (Bool × AssemblyHandler) :=
  (parts.get? 0).bind (fun op =>
  if op = "LOADA" then
    (parts.get? 2).bind (fun s =>
    (pyToInt s).bind (fun i =>
    (memRead h.memory i).bind (fun v =>
    (parts.get? 1).bind (fun r =>
    some (false, { h with short_term := dictSet h.short_term r v })))))
  else if op = "LOAD" then
    (dictGet h.short_term "A").bind (fun a =>
    (memRead h.memory a).bind (fun v =>
    (parts.get? 1).bind (fun r =>
    some (false, { h with short_term := dictSet h.short_term r v }))))
  else if op = "LOADI" then
    (parts.get? 2).bind (fun s =>
    (pyToInt s).bind (fun v =>
    if BOUND < |v| then some (true, faulted h)
    else (parts.get? 1).bind (fun r =>
    some (false, { h with short_term := dictSet h.short_term r v }))))
  else if op = "STOREA" then
    (parts.get? 2).bind (fun s =>
    (pyToInt s).bind (fun i =>
    (parts.get? 1).bind (fun r =>
    (dictGet h.short_term r).bind (fun v =>
    if BOUND < |v| then some (true, faulted h)
    else (memWrite h.memory i v).map (fun m =>
    (false, { h with memory := m }))))))
  else if op = "STORE" then
    (dictGet h.short_term "A").bind (fun i =>
    (parts.get? 1).bind (fun r =>
    (dictGet h.short_term r).bind (fun v =>
    if BOUND < |v| then some (true, faulted h)
    else (memWrite h.memory i v).map (fun m =>
    (false, { h with memory := m })))))
  else if op = "MOVE" then
    (parts.get? 2).bind (fun rs =>
    (dictGet h.short_term rs).bind (fun v =>
    (parts.get? 1).bind (fun rd =>
    some (false, { h with short_term := dictSet h.short_term rd v }))))
  else if op = "ADDI" then
    (parts.get? 2).bind (fun s =>
    (pyToInt s).bind (fun v =>
    if BOUND < |v| then some (true, faulted h)
    else (parts.get? 1).bind (fun r =>
    (dictGet h.short_term r).bind (fun a =>
    some (false, { h with short_term := dictSet h.short_term r (a + v) })))))
  else if op = "ADD" then
    (parts.get? 1).bind (fun rd =>
    (dictGet h.short_term rd).bind (fun a =>
    (parts.get? 2).bind (fun rs =>
    (dictGet h.short_term rs).bind (fun b =>
    let h1 : AssemblyHandler :=
      { h with short_term := dictSet h.short_term rd (a + b) }
    if BOUND < |a + b| then some (true, faulted h1)
    else some (false, h1)))))
  else if op = "SUB" then
    (parts.get? 1).bind (fun rd =>
    (dictGet h.short_term rd).bind (fun a =>
    (parts.get? 2).bind (fun rs =>
    (dictGet h.short_term rs).bind (fun b =>
    let h1 : AssemblyHandler :=
      { h with short_term := dictSet h.short_term rd (a - b) }
    if BOUND < |a - b| then some (true, faulted h1)
    else some (false, h1)))))
  else if op = "MUL" then
    (parts.get? 1).bind (fun rd =>
    (dictGet h.short_term rd).bind (fun a =>
    (parts.get? 2).bind (fun rs =>
    (dictGet h.short_term rs).bind (fun b =>
    let h1 : AssemblyHandler :=
      { h with short_term := dictSet h.short_term rd (a * b) }
    if BOUND < |a * b| then some (true, faulted h1)
    else some (false, h1)))))
  else if op = "DIV" then
    (parts.get? 2).bind (fun rs =>
    (dictGet h.short_term rs).bind (fun b =>
    if b = 0 then some (false, faulted h)
    else (parts.get? 1).bind (fun rd =>
    (dictGet h.short_term rd).bind (fun a =>
    let h1 : AssemblyHandler :=
      { h with short_term := dictSet h.short_term rd (Int.fdiv a b) }
    if BOUND < |Int.fdiv a b| then some (true, faulted h1)
    else some (false, h1)))))
  else if op = "J" then
    (parts.get? 1).bind (fun s =>
    (pyToInt s).bind (fun n =>
    (dictGet h.short_term "P").bind (fun p =>
    some (false, { h with short_term := dictSet h.short_term "P" (p + n) }))))
  else if op = "JR" then
    (parts.get? 1).bind (fun r =>
    (dictGet h.short_term r).bind (fun v =>
    (dictGet h.short_term "P").bind (fun p =>
    some (false, { h with short_term := dictSet h.short_term "P" (p + v) }))))
  else if op = "JZ" then
    (parts.get? 1).bind (fun r =>
    (dictGet h.short_term r).bind (fun v =>
    if v = 0 then
      (parts.get? 2).bind (fun s =>
      (pyToInt s).bind (fun n =>
      (dictGet h.short_term "P").bind (fun p =>
      some (false, { h with short_term := dictSet h.short_term "P" (p + n) }))))
    else some (false, h)))
  else if op = "JLT" then
    (parts.get? 1).bind (fun r1 =>
    (dictGet h.short_term r1).bind (fun v1 =>
    (parts.get? 2).bind (fun r2 =>
    (dictGet h.short_term r2).bind (fun v2 =>
    if v1 < v2 then
      (parts.get? 3).bind (fun s =>
      (pyToInt s).bind (fun n =>
      (dictGet h.short_term "P").bind (fun p =>
      some (false, { h with short_term := dictSet h.short_term "P" (p + n) }))))
    else some (false, h)))))
  else if op = "HALT" then
    some (true, { h with error := true, output := h.output ++ [HALTMSG] })
  else if op = "PRINT" then
    (parts.get? 1).bind (fun r =>
    (dictGet h.short_term r).bind (fun v =>
    some (false, { h with output := h.output ++ [toString v] })))
  else
    some (false, h))

/-- The method parse_command: dispatch on the opcode, then (unless a return
statement was executed) increment P and X. -/
def parse_command (command : String) (h : AssemblyHandler) :
    Option AssemblyHandler :=
  (parse_inner (pySplit command) h).bind (fun r =>
    if r.1 then some r.2 else incPX r.2)

/-- Result of one iteration of the execute loop. -/
inductive StepRes where
  | cont (h : AssemblyHandler)
  | done (h : AssemblyHandler)
  | crash

/-- One iteration of the while loop of the method execute: test the loop
condition, fetch the command at P, run the two guards, dispatch. -/
def execStep (h : AssemblyHandler) : StepRes :=
  match dictGet h.short_term "P" with
  | none => .crash
  | some p =>
    if p < (h.commands.length : Int) ∧ h.error = false then
      match pyListGet h.commands p with
      | none => .crash
      | some cmd =>
        if p < 0 ∨ 10000 ≤ p then .done (faulted h)
        else
          match dictGet h.short_term "X" with
          | none => .crash
          | some x =>
            if 10 ^ 6 < x then .done (faulted h)
            else
              match parse_command cmd h with
              | none => .crash
              | some h2 => .cont h2
    else .done h

/-- The method execute, run for at most the given number of loop
iterations; a cont result means the loop was still running when the
iteration budget ran out. -/
def execute : Nat → AssemblyHandler → StepRes
  | 0, h => .cont h
  | n + 1, h =>
    match execStep h with
    | .cont h2 => execute n h2
    | r => r

/-- The state built by the constructor of AssemblyHandler, with the given
command list loaded. -/
def initHandler (cmds : List String) : AssemblyHandler :=
  { memory := ⟨2048, fun _ => 0⟩
    short_term := [("A", 0), ("B", 0), ("C", 0), ("D", 0), ("P", 0), ("X", 0)]
    commands := cmds
    error := false
    output := [] }

/-! ### Dictionary lemmas -/

theorem dictGet_dictSet_self (d : List (String × Int)) (k : String) (v : Int) :
    dictGet (dictSet d k v) k = some v := by
  induction d with
  | nil => simp [dictGet, dictSet]
  | cons a d ih =>
    obtain ⟨ak, av⟩ := a
    by_cases hak : ak = k
    · subst hak; simp [dictGet, dictSet]
    · simp [dictGet, dictSet, hak, ih]

theorem dictGet_dictSet_ne (d : List (String × Int)) (k r : String) (v : Int)
    (hrk : r ≠ k) : dictGet (dictSet d k v) r = dictGet d r := by
  have hkr : k ≠ r := Ne.symm hrk
  induction d with
  | nil => simp [dictGet, dictSet, hkr]
  | cons a d ih =>
    obtain ⟨ak, av⟩ := a
    by_cases hak : ak = k
    · subst hak
      simp [dictGet, dictSet, hkr]
    · by_cases har : ak = r
      · subst har; simp [dictGet, dictSet, hak]
      · simp [dictGet, dictSet, hak, har, ih]

theorem dictGet_dictSet_isSome (d : List (String × Int)) (k r : String)
    (v : Int) :
    (dictGet (dictSet d k v) r).isSome = true ↔
      r = k ∨ (dictGet d r).isSome = true := by
  by_cases hrk : r = k
  · subst hrk; simp [dictGet_dictSet_self]
  · simp [dictGet_dictSet_ne _ _ _ _ hrk, hrk]

/-! ### Lemmas about the trailing P and X increments -/

/-- The state produced by the trailing increments when P held p and X held
x. -/
def bumpPX (h : AssemblyHandler) (p x : Int) : AssemblyHandler :=
  { h with short_term := dictSet (dictSet h.short_term "P" (p + 1)) "X" (x + 1) }

theorem incPX_eq (h : AssemblyHandler) (p x : Int)
    (hp : dictGet h.short_term "P" = some p)
    (hx : dictGet h.short_term "X" = some x) :
    incPX h = some (bumpPX h p x) := by
  have hXP : ("X" : String) ≠ "P" := by decide
  simp [incPX, hp, dictGet_dictSet_ne _ _ _ _ hXP, hx, bumpPX]

theorem incPX_inv (h h2 : AssemblyHandler) (H : incPX h = some h2) :
    ∃ p x, dictGet h.short_term "P" = some p ∧
      dictGet h.short_term "X" = some x ∧ h2 = bumpPX h p x := by
  cases hp : dictGet h.short_term "P" with
  | none => simp [incPX, hp] at H
  | some p =>
    cases hx : dictGet h.short_term "X" with
    | none =>
      have hXP : ("X" : String) ≠ "P" := by decide
      simp [incPX, hp, dictGet_dictSet_ne _ _ _ _ hXP, hx] at H
    | some x =>
      refine ⟨p, x, rfl, rfl, ?_⟩
      rw [incPX_eq h p x hp hx] at H
      exact (Option.some_inj.mp H).symm

theorem incPX_frame (h h2 : AssemblyHandler) (H : incPX h = some h2) :
    h2.memory = h.memory ∧ h2.commands = h.commands ∧
      h2.error = h.error ∧ h2.output = h.output := by
  obtain ⟨p, x, _, _, rfl⟩ := incPX_inv h h2 H
  exact ⟨rfl, rfl, rfl, rfl⟩

theorem incPX_get_ne (h h2 : AssemblyHandler) (H : incPX h = some h2)
    (r : String) (hrP : r ≠ "P") (hrX : r ≠ "X") :
    dictGet h2.short_term r = dictGet h.short_term r := by
  obtain ⟨p, x, _, _, rfl⟩ := incPX_inv h h2 H
  show dictGet (dictSet (dictSet h.short_term "P" (p + 1)) "X" (x + 1)) r = _
  rw [dictGet_dictSet_ne _ _ _ _ hrX, dictGet_dictSet_ne _ _ _ _ hrP]

theorem incPX_getP (h h2 : AssemblyHandler) (H : incPX h = some h2) (p : Int)
    (hp : dictGet h.short_term "P" = some p) :
    dictGet h2.short_term "P" = some (p + 1) := by
  obtain ⟨p0, x0, hp0, hx0, rfl⟩ := incPX_inv h h2 H
  rw [hp0, Option.some_inj] at hp
  subst hp
  simp only [bumpPX]
  rw [dictGet_dictSet_ne _ _ _ _ (by decide : ("P" : String) ≠ "X"),
    dictGet_dictSet_self]

theorem incPX_getX (h h2 : AssemblyHandler) (H : incPX h = some h2) (x : Int)
    (hx : dictGet h.short_term "X" = some x) :
    dictGet h2.short_term "X" = some (x + 1) := by
  obtain ⟨p0, x0, hp0, hx0, rfl⟩ := incPX_inv h h2 H
  rw [hx0, Option.some_inj] at hx
  subst hx
  simp only [bumpPX]
  rw [dictGet_dictSet_self]

theorem incPX_isSome (h h2 : AssemblyHandler) (H : incPX h = some h2)
    (r : String) :
    (dictGet h2.short_term r).isSome = true ↔
      (dictGet h.short_term r).isSome = true := by
  obtain ⟨p, x, hp, hx, rfl⟩ := incPX_inv h h2 H
  show (dictGet (dictSet (dictSet h.short_term "P" (p + 1)) "X" (x + 1)) r).isSome = true ↔ _
  rw [dictGet_dictSet_isSome, dictGet_dictSet_isSome]
  constructor
  · rintro (rfl | rfl | hs)
    · simp [hx]
    · simp [hp]
    · exact hs
  · intro hs
    exact Or.inr (Or.inr hs)

/-! ### Python list access lemmas -/

theorem pyListGet_mem {α : Type} (l : List α) (i : Int) (v : α)
    (H : pyListGet l i = some v) : v ∈ l := by
  unfold pyListGet at H
  cases hn : pyIdxOf l.length i with
  | none => rw [hn] at H; simp at H
  | some n =>
    rw [hn] at H
    simp only [Option.some_bind] at H
    exact List.get?_mem H

/-! ### Forward equations: one lemma per branch of parse_command -/

theorem parse_LOADA (cmd r s : String) (i v : Int) (h : AssemblyHandler)
    (hs : pySplit cmd = ["LOADA", r, s]) (hn : pyToInt s = some i)
    (hv : memRead h.memory i = some v) :
    parse_command cmd h =
      incPX { h with short_term := dictSet h.short_term r v } := by
  rw [parse_command, hs]
  simp only [parse_inner, List.get?, Option.some_bind, String.reduceEq,
    reduceIte, hn, hv]
  simp only [Bool.false_eq_true, if_false]

theorem parse_LOAD (cmd r : String) (i v : Int) (h : AssemblyHandler)
    (hs : pySplit cmd = ["LOAD", r]) (ha : dictGet h.short_term "A" = some i)
    (hv : memRead h.memory i = some v) :
    parse_command cmd h =
      incPX { h with short_term := dictSet h.short_term r v } := by
  rw [parse_command, hs]
  simp only [parse_inner, List.get?, Option.some_bind, String.reduceEq,
    reduceIte, ha, hv]
  simp only [Bool.false_eq_true, if_false]

theorem parse_LOADI_ok (cmd r s : String) (v : Int) (h : AssemblyHandler)
    (hs : pySplit cmd = ["LOADI", r, s]) (hn : pyToInt s = some v)
    (hb : ¬ BOUND < |v|) :
    parse_command cmd h =
      incPX { h with short_term := dictSet h.short_term r v } := by
  rw [parse_command, hs]
  simp only [parse_inner, List.get?, Option.some_bind, String.reduceEq,
    reduceIte, hn]
  rw [if_neg hb]
  simp only [List.get?, Option.some_bind, Bool.false_eq_true, if_false]

theorem parse_LOADI_fault (cmd r s : String) (v : Int) (h : AssemblyHandler)
    (hs : pySplit cmd = ["LOADI", r, s]) (hn : pyToInt s = some v)
    (hb : BOUND < |v|) :
    parse_command cmd h = some (faulted h) := by
  rw [parse_command, hs]
  simp only [parse_inner, List.get?, Option.some_bind, String.reduceEq,
    reduceIte, hn]
  rw [if_pos hb]
  simp only [Option.some_bind, if_true]

theorem parse_STOREA_ok (cmd r s : String) (i v : Int) (m : MemArray)
    (h : AssemblyHandler)
    (hs : pySplit cmd = ["STOREA", r, s]) (hn : pyToInt s = some i)
    (hv : dictGet h.short_term r = some v) (hb : ¬ BOUND < |v|)
    (hm : memWrite h.memory i v = some m) :
    parse_command cmd h = incPX { h with memory := m } := by
  rw [parse_command, hs]
  simp only [parse_inner, List.get?, Option.some_bind, String.reduceEq,
    reduceIte, hn, hv]
  rw [if_neg hb]
  rw [hm]
  rfl

theorem parse_STOREA_fault (cmd r s : String) (i v : Int)
    (h : AssemblyHandler)
    (hs : pySplit cmd = ["STOREA", r, s]) (hn : pyToInt s = some i)
    (hv : dictGet h.short_term r = some v) (hb : BOUND < |v|) :
    parse_command cmd h = some (faulted h) := by
  rw [parse_command, hs]
  simp only [parse_inner, List.get?, Option.some_bind, String.reduceEq,
    reduceIte, hn, hv]
  rw [if_pos hb]
  simp only [Option.some_bind, if_true]

theorem parse_STORE_ok (cmd r : String) (i v : Int) (m : MemArray)
    (h : AssemblyHandler)
    (hs : pySplit cmd = ["STORE", r]) (ha : dictGet h.short_term "A" = some i)
    (hv : dictGet h.short_term r = some v) (hb : ¬ BOUND < |v|)
    (hm : memWrite h.memory i v = some m) :
    parse_command cmd h = incPX { h with memory := m } := by
  rw [parse_command, hs]
  simp only [parse_inner, List.get?, Option.some_bind, String.reduceEq,
    reduceIte, ha, hv]
  rw [if_neg hb]
  rw [hm]
  rfl

theorem parse_STORE_fault (cmd r : String) (i v : Int) (h : AssemblyHandler)
    (hs : pySplit cmd = ["STORE", r]) (ha : dictGet h.short_term "A" = some i)
    (hv : dictGet h.short_term r = some v) (hb : BOUND < |v|) :
    parse_command cmd h = some (faulted h) := by
  rw [parse_command, hs]
  simp only [parse_inner, List.get?, Option.some_bind, String.reduceEq,
    reduceIte, ha, hv]
  rw [if_pos hb]
  simp only [Option.some_bind, if_true]

theorem parse_MOVE (cmd rd rs : String) (v : Int) (h : AssemblyHandler)
    (hs : pySplit cmd = ["MOVE", rd, rs])
    (hv : dictGet h.short_term rs = some v) :
    parse_command cmd h =
      incPX { h with short_term := dictSet h.short_term rd v } := by
  rw [parse_command, hs]
  simp only [parse_inner, List.get?, Option.some_bind, String.reduceEq,
    reduceIte, hv]
  simp only [Bool.false_eq_true, if_false]

theorem parse_ADDI_ok (cmd r s : String) (v a : Int) (h : AssemblyHandler)
    (hs : pySplit cmd = ["ADDI", r, s]) (hn : pyToInt s = some v)
    (hb : ¬ BOUND < |v|) (ha : dictGet h.short_term r = some a) :
    parse_command cmd h =
      incPX { h with short_term := dictSet h.short_term r (a + v) } := by
  rw [parse_command, hs]
  simp only [parse_inner, List.get?, Option.some_bind, String.reduceEq,
    reduceIte, hn]
  rw [if_neg hb]
  simp only [List.get?, Option.some_bind, ha, Bool.false_eq_true, if_false]

theorem parse_ADDI_fault (cmd r s : String) (v : Int) (h : AssemblyHandler)
    (hs : pySplit cmd = ["ADDI", r, s]) (hn : pyToInt s = some v)
    (hb : BOUND < |v|) :
    parse_command cmd h = some (faulted h) := by
  rw [parse_command, hs]
  simp only [parse_inner, List.get?, Option.some_bind, String.reduceEq,
    reduceIte, hn]
  rw [if_pos hb]
  simp only [Option.some_bind, if_true]

theorem parse_ADD_ok (cmd rd rs : String) (a b : Int) (h : AssemblyHandler)
    (hs : pySplit cmd = ["ADD", rd, rs])
    (ha : dictGet h.short_term rd = some a)
    (hb : dictGet h.short_term rs = some b) (hc : ¬ BOUND < |a + b|) :
    parse_command cmd h =
      incPX { h with short_term := dictSet h.short_term rd (a + b) } := by
  rw [parse_command, hs]
  simp only [parse_inner, List.get?, Option.some_bind, String.reduceEq,
    reduceIte, ha, hb]
  rw [if_neg hc]
  rfl

theorem parse_ADD_fault (cmd rd rs : String) (a b : Int) (h : AssemblyHandler)
    (hs : pySplit cmd = ["ADD", rd, rs])
    (ha : dictGet h.short_term rd = some a)
    (hb : dictGet h.short_term rs = some b) (hc : BOUND < |a + b|) :
    parse_command cmd h =
      some (faulted { h with short_term := dictSet h.short_term rd (a + b) }) := by
  rw [parse_command, hs]
  simp only [parse_inner, List.get?, Option.some_bind, String.reduceEq,
    reduceIte, ha, hb]
  rw [if_pos hc]
  rfl

theorem parse_SUB_ok (cmd rd rs : String) (a b : Int) (h : AssemblyHandler)
    (hs : pySplit cmd = ["SUB", rd, rs])
    (ha : dictGet h.short_term rd = some a)
    (hb : dictGet h.short_term rs = some b) (hc : ¬ BOUND < |a - b|) :
    parse_command cmd h =
      incPX { h with short_term := dictSet h.short_term rd (a - b) } := by
  rw [parse_command, hs]
  simp only [parse_inner, List.get?, Option.some_bind, String.reduceEq,
    reduceIte, ha, hb]
  rw [if_neg hc]
  rfl

theorem parse_SUB_fault (cmd rd rs : String) (a b : Int) (h : AssemblyHandler)
    (hs : pySplit cmd = ["SUB", rd, rs])
    (ha : dictGet h.short_term rd = some a)
    (hb : dictGet h.short_term rs = some b) (hc : BOUND < |a - b|) :
    parse_command cmd h =
      some (faulted { h with short_term := dictSet h.short_term rd (a - b) }) := by
  rw [parse_command, hs]
  simp only [parse_inner, List.get?, Option.some_bind, String.reduceEq,
    reduceIte, ha, hb]
  rw [if_pos hc]
  rfl

theorem parse_MUL_ok (cmd rd rs : String) (a b : Int) (h : AssemblyHandler)
    (hs : pySplit cmd = ["MUL", rd, rs])
    (ha : dictGet h.short_term rd = some a)
    (hb : dictGet h.short_term rs = some b) (hc : ¬ BOUND < |a * b|) :
    parse_command cmd h =
      incPX { h with short_term := dictSet h.short_term rd (a * b) } := by
  rw [parse_command, hs]
  simp only [parse_inner, List.get?, Option.some_bind, String.reduceEq,
    reduceIte, ha, hb]
  rw [if_neg hc]
  rfl

theorem parse_MUL_fault (cmd rd rs : String) (a b : Int) (h : AssemblyHandler)
    (hs : pySplit cmd = ["MUL", rd, rs])
    (ha : dictGet h.short_term rd = some a)
    (hb : dictGet h.short_term rs = some b) (hc : BOUND < |a * b|) :
    parse_command cmd h =
      some (faulted { h with short_term := dictSet h.short_term rd (a * b) }) := by
  rw [parse_command, hs]
  simp only [parse_inner, List.get?, Option.some_bind, String.reduceEq,
    reduceIte, ha, hb]
  rw [if_pos hc]
  rfl

theorem parse_DIV_zero (cmd rd rs : String) (h : AssemblyHandler)
    (hs : pySplit cmd = ["DIV", rd, rs])
    (hb : dictGet h.short_term rs = some 0) :
    parse_command cmd h = incPX (faulted h) := by
  rw [parse_command, hs]
  simp only [parse_inner, List.get?, Option.some_bind, String.reduceEq,
    reduceIte, hb]
  rfl

theorem parse_DIV_ok (cmd rd rs : String) (a b : Int) (h : AssemblyHandler)
    (hs : pySplit cmd = ["DIV", rd, rs])
    (hb : dictGet h.short_term rs = some b) (hb0 : b ≠ 0)
    (ha : dictGet h.short_term rd = some a)
    (hc : ¬ BOUND < |Int.fdiv a b|) :
    parse_command cmd h =
      incPX { h with short_term := dictSet h.short_term rd (Int.fdiv a b) } := by
  rw [parse_command, hs]
  simp only [parse_inner, List.get?, Option.some_bind, String.reduceEq,
    reduceIte, hb]
  rw [if_neg hb0]
  simp only [List.get?, Option.some_bind, ha]
  rw [if_neg hc]
  rfl

theorem parse_DIV_fault (cmd rd rs : String) (a b : Int) (h : AssemblyHandler)
    (hs : pySplit cmd = ["DIV", rd, rs])
    (hb : dictGet h.short_term rs = some b) (hb0 : b ≠ 0)
    (ha : dictGet h.short_term rd = some a)
    (hc : BOUND < |Int.fdiv a b|) :
    parse_command cmd h =
      some (faulted { h with short_term := dictSet h.short_term rd (Int.fdiv a b) }) := by
  rw [parse_command, hs]
  simp only [parse_inner, List.get?, Option.some_bind, String.reduceEq,
    reduceIte, hb]
  rw [if_neg hb0]
  simp only [List.get?, Option.some_bind, ha]
  rw [if_pos hc]
  rfl

theorem parse_J (cmd s : String) (n p : Int) (h : AssemblyHandler)
    (hs : pySplit cmd = ["J", s]) (hn : pyToInt s = some n)
    (hp : dictGet h.short_term "P" = some p) :
    parse_command cmd h =
      incPX { h with short_term := dictSet h.short_term "P" (p + n) } := by
  rw [parse_command, hs]
  simp only [parse_inner, List.get?, Option.some_bind, String.reduceEq,
    reduceIte, hn, hp]
  rfl

theorem parse_JR (cmd r : String) (v p : Int) (h : AssemblyHandler)
    (hs : pySplit cmd = ["JR", r]) (hv : dictGet h.short_term r = some v)
    (hp : dictGet h.short_term "P" = some p) :
    parse_command cmd h =
      incPX { h with short_term := dictSet h.short_term "P" (p + v) } := by
  rw [parse_command, hs]
  simp only [parse_inner, List.get?, Option.some_bind, String.reduceEq,
    reduceIte, hv, hp]
  rfl

theorem parse_JZ_taken (cmd r s : String) (n p : Int) (h : AssemblyHandler)
    (hs : pySplit cmd = ["JZ", r, s])
    (hv : dictGet h.short_term r = some 0) (hn : pyToInt s = some n)
    (hp : dictGet h.short_term "P" = some p) :
    parse_command cmd h =
      incPX { h with short_term := dictSet h.short_term "P" (p + n) } := by
  rw [parse_command, hs]
  simp only [parse_inner, List.get?, Option.some_bind, String.reduceEq,
    reduceIte, hv, hn, hp]
  rfl

theorem parse_JZ_skip (cmd r s : String) (v : Int) (h : AssemblyHandler)
    (hs : pySplit cmd = ["JZ", r, s])
    (hv : dictGet h.short_term r = some v) (hv0 : v ≠ 0) :
    parse_command cmd h = incPX h := by
  rw [parse_command, hs]
  simp only [parse_inner, List.get?, Option.some_bind, String.reduceEq,
    reduceIte, hv]
  rw [if_neg hv0]
  rfl

theorem parse_JLT_taken (cmd r1 r2 s : String) (v1 v2 n p : Int)
    (h : AssemblyHandler)
    (hs : pySplit cmd = ["JLT", r1, r2, s])
    (hv1 : dictGet h.short_term r1 = some v1)
    (hv2 : dictGet h.short_term r2 = some v2) (hlt : v1 < v2)
    (hn : pyToInt s = some n) (hp : dictGet h.short_term "P" = some p) :
    parse_command cmd h =
      incPX { h with short_term := dictSet h.short_term "P" (p + n) } := by
  rw [parse_command, hs]
  simp only [parse_inner, List.get?, Option.some_bind, String.reduceEq,
    reduceIte, hv1, hv2]
  rw [if_pos hlt]
  simp only [List.get?, Option.some_bind, hn, hp]
  rfl

theorem parse_JLT_skip (cmd r1 r2 s : String) (v1 v2 : Int)
    (h : AssemblyHandler)
    (hs : pySplit cmd = ["JLT", r1, r2, s])
    (hv1 : dictGet h.short_term r1 = some v1)
    (hv2 : dictGet h.short_term r2 = some v2) (hlt : ¬ v1 < v2) :
    parse_command cmd h = incPX h := by
  rw [parse_command, hs]
  simp only [parse_inner, List.get?, Option.some_bind, String.reduceEq,
    reduceIte, hv1, hv2]
  rw [if_neg hlt]
  rfl

theorem parse_HALT (cmd : String) (h : AssemblyHandler)
    (hs : pySplit cmd = ["HALT"]) :
    parse_command cmd h =
      some { h with error := true, output := h.output ++ [HALTMSG] } := by
  rw [parse_command, hs]
  simp only [parse_inner, List.get?, Option.some_bind, String.reduceEq,
    reduceIte]

theorem parse_PRINT (cmd r : String) (v : Int) (h : AssemblyHandler)
    (hs : pySplit cmd = ["PRINT", r]) (hv : dictGet h.short_term r = some v) :
    parse_command cmd h =
      incPX { h with output := h.output ++ [toString v] } := by
  rw [parse_command, hs]
  simp only [parse_inner, List.get?, Option.some_bind, String.reduceEq,
    reduceIte, hv]
  rfl

theorem parse_inner_cases (parts : List String) (h : AssemblyHandler)
    (sk : Bool) (hm : AssemblyHandler)
    (H : parse_inner parts h = some (sk, hm)) :
    (sk = true → hm.error = true) ∧
      ((hm.short_term = h.short_term ∧ hm.memory = h.memory) ∨
       (∃ r v, r ∈ parts ∧ hm.short_term = dictSet h.short_term r v ∧
         hm.memory = h.memory) ∨
       (∃ p v, dictGet h.short_term "P" = some p ∧
         hm.short_term = dictSet h.short_term "P" v ∧ hm.memory = h.memory) ∨
       (hm.short_term = h.short_term ∧
         ∃ i v m, memWrite h.memory i v = some m ∧ hm.memory = m)) := by
  unfold parse_inner at H
  cases hop : parts.get? 0 with
  | none => rw [hop] at H; exact absurd H (by simp)
  | some op =>
    rw [hop] at H
    simp only [Option.some_bind] at H
    by_cases e1 : op = "LOADA"
    · subst e1
      simp only [String.reduceEq, reduceIte] at H
      simp only [Option.bind_eq_some, Option.some.injEq, Prod.mk.injEq] at H
      obtain ⟨s, hs, i, hi, v, hv, r, hr, hsk, hhm⟩ := H
      subst hhm
      exact ⟨fun ht => Bool.noConfusion (hsk.trans ht),
        Or.inr (Or.inl ⟨r, v, List.get?_mem hr, rfl, rfl⟩)⟩
    rw [if_neg e1] at H
    by_cases e2 : op = "LOAD"
    · subst e2
      simp only [String.reduceEq, reduceIte] at H
      simp only [Option.bind_eq_some, Option.some.injEq, Prod.mk.injEq] at H
      obtain ⟨a, ha, v, hv, r, hr, hsk, hhm⟩ := H
      subst hhm
      exact ⟨fun ht => Bool.noConfusion (hsk.trans ht),
        Or.inr (Or.inl ⟨r, v, List.get?_mem hr, rfl, rfl⟩)⟩
    rw [if_neg e2] at H
    by_cases e3 : op = "LOADI"
    · subst e3
      simp only [String.reduceEq, reduceIte] at H
      simp only [Option.bind_eq_some, ite_eq_iff, Option.some.injEq,
        Prod.mk.injEq] at H
      obtain ⟨s, hs, v, hv, H2⟩ := H
      rcases H2 with ⟨hb, hsk, hhm⟩ | ⟨hb, r, hr, hsk, hhm⟩
      · subst hhm
        exact ⟨fun _ => rfl, Or.inl ⟨rfl, rfl⟩⟩
      · subst hhm
        exact ⟨fun ht => Bool.noConfusion (hsk.trans ht),
          Or.inr (Or.inl ⟨r, v, List.get?_mem hr, rfl, rfl⟩)⟩
    rw [if_neg e3] at H
    by_cases e4 : op = "STOREA"
    · subst e4
      simp only [String.reduceEq, reduceIte] at H
      simp only [Option.bind_eq_some, ite_eq_iff, Option.map_eq_some',
        Option.some.injEq, Prod.mk.injEq] at H
      obtain ⟨s, hs, i, hi, r, hr, v, hv, H2⟩ := H
      rcases H2 with ⟨hb, hsk, hhm⟩ | ⟨hb, m, hmm, hsk, hhm⟩
      · subst hhm
        exact ⟨fun _ => rfl, Or.inl ⟨rfl, rfl⟩⟩
      · subst hhm
        exact ⟨fun ht => Bool.noConfusion (hsk.trans ht),
          Or.inr (Or.inr (Or.inr ⟨rfl, i, v, m, hmm, rfl⟩))⟩
    rw [if_neg e4] at H
    by_cases e5 : op = "STORE"
    · subst e5
      simp only [String.reduceEq, reduceIte] at H
      simp only [Option.bind_eq_some, ite_eq_iff, Option.map_eq_some',
        Option.some.injEq, Prod.mk.injEq] at H
      obtain ⟨i, hi, r, hr, v, hv, H2⟩ := H
      rcases H2 with ⟨hb, hsk, hhm⟩ | ⟨hb, m, hmm, hsk, hhm⟩
      · subst hhm
        exact ⟨fun _ => rfl, Or.inl ⟨rfl, rfl⟩⟩
      · subst hhm
        exact ⟨fun ht => Bool.noConfusion (hsk.trans ht),
          Or.inr (Or.inr (Or.inr ⟨rfl, i, v, m, hmm, rfl⟩))⟩
    rw [if_neg e5] at H
    by_cases e6 : op = "MOVE"
    · subst e6
      simp only [String.reduceEq, reduceIte] at H
      simp only [Option.bind_eq_some, Option.some.injEq, Prod.mk.injEq] at H
      obtain ⟨rs, hrs, v, hv, rd, hrd, hsk, hhm⟩ := H
      subst hhm
      exact ⟨fun ht => Bool.noConfusion (hsk.trans ht),
        Or.inr (Or.inl ⟨rd, v, List.get?_mem hrd, rfl, rfl⟩)⟩
    rw [if_neg e6] at H
    by_cases e7 : op = "ADDI"
    · subst e7
      simp only [String.reduceEq, reduceIte] at H
      simp only [Option.bind_eq_some, ite_eq_iff, Option.some.injEq,
        Prod.mk.injEq] at H
      obtain ⟨s, hs, v, hv, H2⟩ := H
      rcases H2 with ⟨hb, hsk, hhm⟩ | ⟨hb, r, hr, a, ha, hsk, hhm⟩
      · subst hhm
        exact ⟨fun _ => rfl, Or.inl ⟨rfl, rfl⟩⟩
      · subst hhm
        exact ⟨fun ht => Bool.noConfusion (hsk.trans ht),
          Or.inr (Or.inl ⟨r, a + v, List.get?_mem hr, rfl, rfl⟩)⟩
    rw [if_neg e7] at H
    by_cases e8 : op = "ADD"
    · subst e8
      simp only [String.reduceEq, reduceIte] at H
      simp only [Option.bind_eq_some, ite_eq_iff, Option.some.injEq,
        Prod.mk.injEq] at H
      obtain ⟨rd, hrd, a, ha, rs, hrs, b, hb, H2⟩ := H
      rcases H2 with ⟨hc, hsk, hhm⟩ | ⟨hc, hsk, hhm⟩
      · subst hhm
        exact ⟨fun _ => rfl,
          Or.inr (Or.inl ⟨rd, a + b, List.get?_mem hrd, rfl, rfl⟩)⟩
      · subst hhm
        exact ⟨fun ht => Bool.noConfusion (hsk.trans ht),
          Or.inr (Or.inl ⟨rd, a + b, List.get?_mem hrd, rfl, rfl⟩)⟩
    rw [if_neg e8] at H
    by_cases e9 : op = "SUB"
    · subst e9
      simp only [String.reduceEq, reduceIte] at H
      simp only [Option.bind_eq_some, ite_eq_iff, Option.some.injEq,
        Prod.mk.injEq] at H
      obtain ⟨rd, hrd, a, ha, rs, hrs, b, hb, H2⟩ := H
      rcases H2 with ⟨hc, hsk, hhm⟩ | ⟨hc, hsk, hhm⟩
      · subst hhm
        exact ⟨fun _ => rfl,
          Or.inr (Or.inl ⟨rd, a - b, List.get?_mem hrd, rfl, rfl⟩)⟩
      · subst hhm
        exact ⟨fun ht => Bool.noConfusion (hsk.trans ht),
          Or.inr (Or.inl ⟨rd, a - b, List.get?_mem hrd, rfl, rfl⟩)⟩
    rw [if_neg e9] at H
    by_cases e10 : op = "MUL"
    · subst e10
      simp only [String.reduceEq, reduceIte] at H
      simp only [Option.bind_eq_some, ite_eq_iff, Option.some.injEq,
        Prod.mk.injEq] at H
      obtain ⟨rd, hrd, a, ha, rs, hrs, b, hb, H2⟩ := H
      rcases H2 with ⟨hc, hsk, hhm⟩ | ⟨hc, hsk, hhm⟩
      · subst hhm
        exact ⟨fun _ => rfl,
          Or.inr (Or.inl ⟨rd, a * b, List.get?_mem hrd, rfl, rfl⟩)⟩
      · subst hhm
        exact ⟨fun ht => Bool.noConfusion (hsk.trans ht),
          Or.inr (Or.inl ⟨rd, a * b, List.get?_mem hrd, rfl, rfl⟩)⟩
    rw [if_neg e10] at H
    by_cases e11 : op = "DIV"
    · subst e11
      simp only [String.reduceEq, reduceIte] at H
      simp only [Option.bind_eq_some, ite_eq_iff, Option.some.injEq,
        Prod.mk.injEq] at H
      obtain ⟨rs, hrs, b, hb, H2⟩ := H
      rcases H2 with ⟨hb0, hsk, hhm⟩ | ⟨hb0, rd, hrd, a, ha, H3⟩
      · subst hhm
        exact ⟨fun _ => rfl, Or.inl ⟨rfl, rfl⟩⟩
      · rcases H3 with ⟨hc, hsk, hhm⟩ | ⟨hc, hsk, hhm⟩
        · subst hhm
          exact ⟨fun _ => rfl,
            Or.inr (Or.inl ⟨rd, Int.fdiv a b, List.get?_mem hrd, rfl, rfl⟩)⟩
        · subst hhm
          exact ⟨fun ht => Bool.noConfusion (hsk.trans ht),
            Or.inr (Or.inl ⟨rd, Int.fdiv a b, List.get?_mem hrd, rfl, rfl⟩)⟩
    rw [if_neg e11] at H
    by_cases e12 : op = "J"
    · subst e12
      simp only [String.reduceEq, reduceIte] at H
      simp only [Option.bind_eq_some, Option.some.injEq, Prod.mk.injEq] at H
      obtain ⟨s, hs, n, hn, p, hp, hsk, hhm⟩ := H
      subst hhm
      exact ⟨fun ht => Bool.noConfusion (hsk.trans ht),
        Or.inr (Or.inr (Or.inl ⟨p, p + n, hp, rfl, rfl⟩))⟩
    rw [if_neg e12] at H
    by_cases e13 : op = "JR"
    · subst e13
      simp only [String.reduceEq, reduceIte] at H
      simp only [Option.bind_eq_some, Option.some.injEq, Prod.mk.injEq] at H
      obtain ⟨r, hr, v, hv, p, hp, hsk, hhm⟩ := H
      subst hhm
      exact ⟨fun ht => Bool.noConfusion (hsk.trans ht),
        Or.inr (Or.inr (Or.inl ⟨p, p + v, hp, rfl, rfl⟩))⟩
    rw [if_neg e13] at H
    by_cases e14 : op = "JZ"
    · subst e14
      simp only [String.reduceEq, reduceIte] at H
      simp only [Option.bind_eq_some, ite_eq_iff, Option.some.injEq,
        Prod.mk.injEq] at H
      obtain ⟨r, hr, v, hv, H2⟩ := H
      rcases H2 with ⟨hv0, s, hs, n, hn, p, hp, hsk, hhm⟩ | ⟨hv0, hsk, hhm⟩
      · subst hhm
        exact ⟨fun ht => Bool.noConfusion (hsk.trans ht),
          Or.inr (Or.inr (Or.inl ⟨p, p + n, hp, rfl, rfl⟩))⟩
      · subst hhm
        exact ⟨fun ht => Bool.noConfusion (hsk.trans ht), Or.inl ⟨rfl, rfl⟩⟩
    rw [if_neg e14] at H
    by_cases e15 : op = "JLT"
    · subst e15
      simp only [String.reduceEq, reduceIte] at H
      simp only [Option.bind_eq_some, ite_eq_iff, Option.some.injEq,
        Prod.mk.injEq] at H
      obtain ⟨r1, hr1, v1, hv1, r2, hr2, v2, hv2, H2⟩ := H
      rcases H2 with ⟨hlt, s, hs, n, hn, p, hp, hsk, hhm⟩ | ⟨hlt, hsk, hhm⟩
      · subst hhm
        exact ⟨fun ht => Bool.noConfusion (hsk.trans ht),
          Or.inr (Or.inr (Or.inl ⟨p, p + n, hp, rfl, rfl⟩))⟩
      · subst hhm
        exact ⟨fun ht => Bool.noConfusion (hsk.trans ht), Or.inl ⟨rfl, rfl⟩⟩
    rw [if_neg e15] at H
    by_cases e16 : op = "HALT"
    · subst e16
      simp only [String.reduceEq, reduceIte] at H
      simp only [Option.some.injEq, Prod.mk.injEq] at H
      obtain ⟨hsk, hhm⟩ := H
      subst hhm
      exact ⟨fun _ => rfl, Or.inl ⟨rfl, rfl⟩⟩
    rw [if_neg e16] at H
    by_cases e17 : op = "PRINT"
    · subst e17
      simp only [String.reduceEq, reduceIte] at H
      simp only [Option.bind_eq_some, Option.some.injEq, Prod.mk.injEq] at H
      obtain ⟨r, hr, v, hv, hsk, hhm⟩ := H
      subst hhm
      exact ⟨fun ht => Bool.noConfusion (hsk.trans ht), Or.inl ⟨rfl, rfl⟩⟩
    rw [if_neg e17] at H
    simp only [Option.some.injEq, Prod.mk.injEq] at H
    obtain ⟨hsk, hhm⟩ := H
    subst hhm
    exact ⟨fun ht => Bool.noConfusion (hsk.trans ht), Or.inl ⟨rfl, rfl⟩⟩

theorem parse_command_inv (cmd : String) (h h2 : AssemblyHandler)
    (H : parse_command cmd h = some h2) :
    ∃ sk hm, parse_inner (pySplit cmd) h = some (sk, hm) ∧
      ((sk = true ∧ h2 = hm) ∨ (sk = false ∧ incPX hm = some h2)) := by
  unfold parse_command at H
  cases hi : parse_inner (pySplit cmd) h with
  | none => rw [hi] at H; exact absurd H (by simp)
  | some r =>
    obtain ⟨sk, hm⟩ := r
    rw [hi] at H
    simp only [Option.some_bind] at H
    refine ⟨sk, hm, rfl, ?_⟩
    by_cases hsk : sk = true
    · rw [if_pos hsk] at H
      exact Or.inl ⟨hsk, (Option.some_inj.mp H).symm⟩
    · rw [if_neg hsk] at H
      exact Or.inr ⟨Bool.eq_false_iff.mpr hsk, H⟩

theorem parse_command_incPX (cmd : String) (h h2 : AssemblyHandler)
    (H : parse_command cmd h = some h2) (he : h2.error = false) :
    ∃ hm, incPX hm = some h2 := by
  obtain ⟨sk, hm, hi, hcase⟩ := parse_command_inv cmd h h2 H
  rcases hcase with ⟨hsk, rfl⟩ | ⟨hsk, hinc⟩
  · have := (parse_inner_cases _ _ _ _ hi).1 hsk
    rw [he] at this
    exact absurd this (by decide)
  · exact ⟨hm, hinc⟩

theorem parse_command_keys_mono (cmd : String) (h h2 : AssemblyHandler)
    (H : parse_command cmd h = some h2) (r : String)
    (hr : (dictGet h.short_term r).isSome = true) :
    (dictGet h2.short_term r).isSome = true := by
  obtain ⟨sk, hm, hi, hcase⟩ := parse_command_inv cmd h h2 H
  have hmkeys : (dictGet hm.short_term r).isSome = true := by
    rcases (parse_inner_cases _ _ _ _ hi).2 with
      ⟨hst, _⟩ | ⟨k, v, _, hst, _⟩ | ⟨p, v, _, hst, _⟩ | ⟨hst, _⟩
    · rw [hst]; exact hr
    · rw [hst, dictGet_dictSet_isSome]; exact Or.inr hr
    · rw [hst, dictGet_dictSet_isSome]; exact Or.inr hr
    · rw [hst]; exact hr
  rcases hcase with ⟨_, rfl⟩ | ⟨_, hinc⟩
  · exact hmkeys
  · exact (incPX_isSome hm h2 hinc r).mpr hmkeys

theorem parse_command_keys_sub (cmd : String) (h h2 : AssemblyHandler)
    (H : parse_command cmd h = some h2) (r : String)
    (hr2 : (dictGet h2.short_term r).isSome = true) :
    (dictGet h.short_term r).isSome = true ∨ r ∈ pySplit cmd := by
  obtain ⟨sk, hm, hi, hcase⟩ := parse_command_inv cmd h h2 H
  have hmkeys : (dictGet hm.short_term r).isSome = true := by
    rcases hcase with ⟨_, rfl⟩ | ⟨_, hinc⟩
    · exact hr2
    · exact (incPX_isSome hm h2 hinc r).mp hr2
  rcases (parse_inner_cases _ _ _ _ hi).2 with
    ⟨hst, _⟩ | ⟨k, v, hk, hst, _⟩ | ⟨p, v, hp, hst, _⟩ | ⟨hst, _⟩
  · rw [hst] at hmkeys; exact Or.inl hmkeys
  · rw [hst, dictGet_dictSet_isSome] at hmkeys
    rcases hmkeys with rfl | hs
    · exact Or.inr hk
    · exact Or.inl hs
  · rw [hst, dictGet_dictSet_isSome] at hmkeys
    rcases hmkeys with rfl | hs
    · exact Or.inl (by rw [hp]; rfl)
    · exact Or.inl hs
  · rw [hst] at hmkeys; exact Or.inl hmkeys

/-- Projection of a done result, for stating concrete whole runs. -/
def doneState : StepRes → Option AssemblyHandler
  | .done h => some h
  | _ => none

/-! ### Claim C1 -/

/-- C1 evidence: the code does not treat out-of-range store indices as an
addressing fault.  A store at index -1 silently wraps to cell 2047 and the
run finishes without error and prints the wrapped value; a store at index
2048 raises an uncaught IndexError (modelled as none), not the fault
diagnostic; a store at index 2047 succeeds. -/
theorem C1_memory_wrap_bug :
    (doneState (execute 10 (initHandler
        ["LOADI A 7", "STOREA A -1", "LOADA B 2047", "PRINT B"]))).map
      (fun h => (h.error, h.output)) = some (false, ["7"]) ∧
    (parse_command "STOREA A 2048" (initHandler [])).isSome = false ∧
    (parse_command "STOREA A 2047" (initHandler [])).isSome = true := by
  refine ⟨by decide, by decide, by decide⟩

/-! ### Claim C8 -/

/-- C8: the overflow check is strictly greater than 2 to the 42.  LOADI of
exactly 4398046511104 succeeds, stores the value and prints nothing; LOADI
of 4398046511105 raises the error flag, prints the fault diagnostic, leaves
the register at 0, and the surrounding run halts without executing the next
instruction. -/
theorem C8_overflow_strict :
    (parse_command "LOADI A 4398046511104" (initHandler [])).map
      (fun h => (h.error, dictGet h.short_term "A", h.output)) =
      some (false, some 4398046511104, []) ∧
    (parse_command "LOADI A 4398046511105" (initHandler [])).map
      (fun h => (h.error, dictGet h.short_term "A", h.output)) =
      some (true, some 0, [FAULTMSG]) ∧
    (doneState (execute 5 (initHandler
        ["LOADI A 4398046511105", "PRINT A"]))).map
      (fun h => (h.error, h.output)) = some (true, [FAULTMSG]) := by
  refine ⟨by decide, by decide, by decide⟩

/-- C2 counterexample: ADDI checks only the immediate operand, so after
LOADI A 2^42 and ADDI A 2^42 the register A holds 2^43, whose magnitude
exceeds 2^42, with no fault raised. -/
theorem C2_counterexample :
    (doneState (execute 10 (initHandler
        ["LOADI A 4398046511104", "ADDI A 4398046511104"]))).map
      (fun h => (h.error, dictGet h.short_term "A")) =
      some (false, some 8796093022208) ∧
    BOUND < |(8796093022208 : Int)| := by
  refine ⟨by decide, by decide⟩

/-- C3 counterexample: DIV with a zero divisor raises the error flag and
prints the diagnostic, yet still performs the trailing increments: P and X
both advance from 0 to 1. -/
theorem C3_counterexample :
    (parse_command "DIV A B" (initHandler [])).map
      (fun h => (h.error, h.output, dictGet h.short_term "P",
        dictGet h.short_term "X")) =
      some (true, [FAULTMSG], some 1, some 1) := by decide

/-- C4 counterexample: ADD writes the register before checking, so on an
overflow fault the destination holds the out-of-range sum 2^43, not its
previous value 2^42. -/
theorem C4_counterexample :
    (doneState (execute 10 (initHandler
        ["LOADI A 4398046511104", "MOVE B A", "ADD A B"]))).map
      (fun h => (h.error, h.output, dictGet h.short_term "A")) =
      some (true, [FAULTMSG], some 8796093022208) ∧
    BOUND < |(8796093022208 : Int)| ∧
    (8796093022208 : Int) ≠ 4398046511104 := by
  refine ⟨by decide, by decide, by decide⟩

/-- C7 counterexample: an instruction naming an unknown register as its
write destination silently creates a seventh register slot E. -/
theorem C7_counterexample :
    (parse_command "LOADI E 5" (initHandler [])).map
      (fun h => h.short_term.map Prod.fst) =
      some ["A", "B", "C", "D", "P", "X", "E"] := by decide

/-! ### Floor division: Int.fdiv is the floor of the rational quotient -/

theorem fdiv_neg_neg (a b : Int) : Int.fdiv (-a) (-b) = Int.fdiv a b := by
  rcases a with (_ | m) | m <;> rcases b with (_ | n) | n <;>
    first
    | rfl
    | (show (0 : Int) = Int.ofNat ((m + 1) / 0)
       rw [Nat.div_zero]
       rfl)
    | (show Int.ofNat ((m + 1) / 0) = (0 : Int)
       rw [Nat.div_zero]
       rfl)

theorem fdiv_eq_floor_of_pos (a b : Int) (hb : 0 < b) :
    Int.fdiv a b = ⌊(a : ℚ) / (b : ℚ)⌋ := by
  rw [Int.fdiv_eq_ediv a (le_of_lt hb)]
  have hbn : ((b.toNat : ℤ)) = b := Int.toNat_of_nonneg (le_of_lt hb)
  have key := Rat.floor_intCast_div_natCast a b.toNat
  rw [hbn] at key
  have hq : ((b.toNat : ℕ) : ℚ) = (b : ℚ) := by
    exact_mod_cast congrArg (fun z : ℤ => (z : ℚ)) hbn
  rw [hq] at key
  exact key.symm

theorem fdiv_eq_floor (a b : Int) (hb : b ≠ 0) :
    Int.fdiv a b = ⌊(a : ℚ) / (b : ℚ)⌋ := by
  rcases lt_trichotomy b 0 with hneg | rfl | hpos
  · rw [← fdiv_neg_neg a b, fdiv_eq_floor_of_pos (-a) (-b) (by omega)]
    congr 1
    push_cast
    rw [neg_div_neg_eq]
  · exact absurd rfl hb
  · exact fdiv_eq_floor_of_pos a b hpos

theorem abs_fdiv_le (a b : Int) (hb : b ≠ 0) : |Int.fdiv a b| ≤ |a| := by
  rw [fdiv_eq_floor a b hb, abs_le]
  have hb1 : (1 : ℚ) ≤ |(b : ℚ)| := by exact_mod_cast Int.one_le_abs hb
  have habs : |(a : ℚ) / (b : ℚ)| ≤ |(a : ℚ)| := by
    rw [abs_div]
    exact div_le_self (abs_nonneg _) hb1
  constructor
  · rw [Int.le_floor]
    push_cast
    calc -|(a : ℚ)| ≤ -|(a : ℚ) / (b : ℚ)| := neg_le_neg habs
    _ ≤ (a : ℚ) / (b : ℚ) := neg_abs_le _
  · have h1 : ((⌊(a : ℚ) / (b : ℚ)⌋ : ℤ) : ℚ) ≤ (|a| : ℤ) := by
      push_cast
      calc ((⌊(a : ℚ) / (b : ℚ)⌋ : ℤ) : ℚ) ≤ (a : ℚ) / (b : ℚ) := Int.floor_le _
      _ ≤ |(a : ℚ) / (b : ℚ)| := le_abs_self _
      _ ≤ |(a : ℚ)| := habs
    exact_mod_cast h1

/-! ### Claim C6 -/

/-- C6: DIV is floor division.  For in-bound register values with a nonzero
divisor the destination receives Int.fdiv, which equals the floor of the
rational quotient (so DIV never overflows on in-bound operands and the
error flag is unchanged); concretely fdiv (-7) 2 = -4 and the four-line
program prints -4. -/
theorem C6_div_floor :
    (∀ (cmd rd rs : String) (a b : Int) (h h2 : AssemblyHandler),
      pySplit cmd = ["DIV", rd, rs] → rd ≠ "P" → rd ≠ "X" →
      dictGet h.short_term rd = some a →
      dictGet h.short_term rs = some b → b ≠ 0 →
      |a| ≤ BOUND → |b| ≤ BOUND →
      parse_command cmd h = some h2 →
      dictGet h2.short_term rd = some (Int.fdiv a b) ∧
        Int.fdiv a b = ⌊(a : ℚ) / (b : ℚ)⌋ ∧ h2.error = h.error) ∧
    Int.fdiv (-7) 2 = -4 ∧
    (doneState (execute 10 (initHandler
        ["LOADI A -7", "LOADI B 2", "DIV A B", "PRINT A"]))).map
      (fun h => (h.error, h.output)) = some (false, ["-4"]) := by
  refine ⟨?_, by decide, by decide⟩
  intro cmd rd rs a b h h2 hs hrdP hrdX ha hb hb0 haB hbB hpc
  have hnof : ¬ BOUND < |Int.fdiv a b| :=
    not_lt.mpr (le_trans (abs_fdiv_le a b hb0) haB)
  rw [parse_DIV_ok cmd rd rs a b h hs hb hb0 ha hnof] at hpc
  refine ⟨?_, fdiv_eq_floor a b hb0, ?_⟩
  · rw [incPX_get_ne _ _ hpc rd hrdP hrdX]
    exact dictGet_dictSet_self _ _ _
  · exact (incPX_frame _ _ hpc).2.2.1

/-- Demonstration state for the C6 witness: registers A = -7 and B = 2. -/
def hC6before : AssemblyHandler :=
  ⟨⟨2048, fun _ => 0⟩,
    [("A", -7), ("B", 2), ("C", 0), ("D", 0), ("P", 0), ("X", 0)],
    [], false, []⟩

/-- The state after DIV A B runs on hC6before. -/
def hC6after : AssemblyHandler :=
  ⟨⟨2048, fun _ => 0⟩,
    [("A", -4), ("B", 2), ("C", 0), ("D", 0), ("P", 1), ("X", 1)],
    [], false, []⟩

/-- C6 witness: the floor-division theorem applied to DIV A B on the state
with A = -7 and B = 2. -/
theorem C6_div_floor_witness :
    dictGet hC6after.short_term "A" = some (Int.fdiv (-7) 2) ∧
      Int.fdiv (-7) 2 = ⌊((-7 : Int) : ℚ) / ((2 : Int) : ℚ)⌋ ∧
      hC6after.error = hC6before.error :=
  C6_div_floor.1 "DIV A B" "A" "B" (-7) 2 hC6before hC6after rfl
    (by decide) (by decide) rfl rfl (by decide) (by decide) (by decide) rfl

/-! ### Claim C2 -/

theorem memRead_bound (m : MemArray) (i v : Int)
    (hb : ∀ n, |m.get n| ≤ BOUND) (H : memRead m i = some v) :
    |v| ≤ BOUND := by
  unfold memRead at H
  cases hn : pyIdxOf m.size i with
  | none => rw [hn] at H; exact absurd H (by simp)
  | some n =>
    rw [hn] at H
    simp only [Option.map_some', Option.some.injEq] at H
    rw [← H]
    exact hb n

/-- C2 amended: after a non-faulting LOADA, LOAD, LOADI, ADD, SUB, MUL or
DIV, every register other than the control registers P and X stays within
magnitude 2^42, provided memory and the data registers were in bounds
before.  (ADDI is exempt: the code checks only its immediate operand, so
the sum can leave the bound, as the counterexample shows.) -/
theorem C2_register_bound (cmd op : String) (h h2 : AssemblyHandler)
    (hop : (pySplit cmd).get? 0 = some op)
    (hmem : op ∈ (["LOADA", "LOAD", "LOADI", "ADD", "SUB", "MUL",
      "DIV"] : List String))
    (hmb : ∀ n, |h.memory.get n| ≤ BOUND)
    (hrb : ∀ r v, r ≠ "P" → r ≠ "X" →
      dictGet h.short_term r = some v → |v| ≤ BOUND)
    (hpc : parse_command cmd h = some h2) (he : h2.error = false) :
    ∀ r v, r ≠ "P" → r ≠ "X" →
      dictGet h2.short_term r = some v → |v| ≤ BOUND := by
  obtain ⟨sk, hm, hi, hcase⟩ := parse_command_inv cmd h h2 hpc
  rcases hcase with ⟨hskT, rfl⟩ | ⟨hskF, hinc⟩
  · have := (parse_inner_cases _ _ _ _ hi).1 hskT
    rw [he] at this
    exact absurd this (by decide)
  subst hskF
  have herr : h2.error = hm.error := ((incPX_frame _ _ hinc).2.2.1)
  unfold parse_inner at hi
  rw [hop] at hi
  simp only [Option.some_bind] at hi
  intro r v2 hrP hrX hget
  rw [incPX_get_ne _ _ hinc r hrP hrX] at hget
  have hmem2 : op = "LOADA" ∨ op = "LOAD" ∨ op = "LOADI" ∨ op = "ADD" ∨
      op = "SUB" ∨ op = "MUL" ∨ op = "DIV" := by simpa using hmem
  rcases hmem2 with rfl | rfl | rfl | rfl | rfl | rfl | rfl
  · -- LOADA
    simp only [String.reduceEq, reduceIte] at hi
    simp only [Option.bind_eq_some, Option.some.injEq, Prod.mk.injEq] at hi
    obtain ⟨s, hs, i, hn, v, hv, r0, hr0, hsk, hhm⟩ := hi
    subst hhm
    by_cases hrr : r = r0
    · subst hrr
      rw [dictGet_dictSet_self] at hget
      rw [← Option.some_inj.mp hget]
      exact memRead_bound _ _ _ hmb hv
    · rw [dictGet_dictSet_ne _ _ _ _ hrr] at hget
      exact hrb r v2 hrP hrX hget
  · -- LOAD
    simp only [String.reduceEq, reduceIte] at hi
    simp only [Option.bind_eq_some, Option.some.injEq, Prod.mk.injEq] at hi
    obtain ⟨a, ha, v, hv, r0, hr0, hsk, hhm⟩ := hi
    subst hhm
    by_cases hrr : r = r0
    · subst hrr
      rw [dictGet_dictSet_self] at hget
      rw [← Option.some_inj.mp hget]
      exact memRead_bound _ _ _ hmb hv
    · rw [dictGet_dictSet_ne _ _ _ _ hrr] at hget
      exact hrb r v2 hrP hrX hget
  · -- LOADI
    simp only [String.reduceEq, reduceIte] at hi
    simp only [Option.bind_eq_some, ite_eq_iff, Option.some.injEq,
      Prod.mk.injEq] at hi
    obtain ⟨s, hs, v, hv, H2⟩ := hi
    rcases H2 with ⟨hb, hsk, hhm⟩ | ⟨hb, r0, hr0, hsk, hhm⟩
    · exact absurd hsk (by decide)
    · subst hhm
      by_cases hrr : r = r0
      · subst hrr
        rw [dictGet_dictSet_self] at hget
        rw [← Option.some_inj.mp hget]
        exact not_lt.mp hb
      · rw [dictGet_dictSet_ne _ _ _ _ hrr] at hget
        exact hrb r v2 hrP hrX hget
  · -- ADD
    simp only [String.reduceEq, reduceIte] at hi
    simp only [Option.bind_eq_some, ite_eq_iff, Option.some.injEq,
      Prod.mk.injEq] at hi
    obtain ⟨rd, hrd, a, ha, rs, hrs, b, hb, H2⟩ := hi
    rcases H2 with ⟨hc, hsk, hhm⟩ | ⟨hc, hsk, hhm⟩
    · exact absurd hsk (by decide)
    · subst hhm
      by_cases hrr : r = rd
      · subst hrr
        rw [dictGet_dictSet_self] at hget
        rw [← Option.some_inj.mp hget]
        exact not_lt.mp hc
      · rw [dictGet_dictSet_ne _ _ _ _ hrr] at hget
        exact hrb r v2 hrP hrX hget
  · -- SUB
    simp only [String.reduceEq, reduceIte] at hi
    simp only [Option.bind_eq_some, ite_eq_iff, Option.some.injEq,
      Prod.mk.injEq] at hi
    obtain ⟨rd, hrd, a, ha, rs, hrs, b, hb, H2⟩ := hi
    rcases H2 with ⟨hc, hsk, hhm⟩ | ⟨hc, hsk, hhm⟩
    · exact absurd hsk (by decide)
    · subst hhm
      by_cases hrr : r = rd
      · subst hrr
        rw [dictGet_dictSet_self] at hget
        rw [← Option.some_inj.mp hget]
        exact not_lt.mp hc
      · rw [dictGet_dictSet_ne _ _ _ _ hrr] at hget
        exact hrb r v2 hrP hrX hget
  · -- MUL
    simp only [String.reduceEq, reduceIte] at hi
    simp only [Option.bind_eq_some, ite_eq_iff, Option.some.injEq,
      Prod.mk.injEq] at hi
    obtain ⟨rd, hrd, a, ha, rs, hrs, b, hb, H2⟩ := hi
    rcases H2 with ⟨hc, hsk, hhm⟩ | ⟨hc, hsk, hhm⟩
    · exact absurd hsk (by decide)
    · subst hhm
      by_cases hrr : r = rd
      · subst hrr
        rw [dictGet_dictSet_self] at hget
        rw [← Option.some_inj.mp hget]
        exact not_lt.mp hc
      · rw [dictGet_dictSet_ne _ _ _ _ hrr] at hget
        exact hrb r v2 hrP hrX hget
  · -- DIV
    simp only [String.reduceEq, reduceIte] at hi
    simp only [Option.bind_eq_some, ite_eq_iff, Option.some.injEq,
      Prod.mk.injEq] at hi
    obtain ⟨rs, hrs, b, hb, H2⟩ := hi
    rcases H2 with ⟨hb0, hsk, hhm⟩ | ⟨hb0, rd, hrd, a, ha, H3⟩
    · subst hhm
      rw [herr] at he
      exact absurd he (by simp [faulted])
    · rcases H3 with ⟨hc, hsk, hhm⟩ | ⟨hc, hsk, hhm⟩
      · exact absurd hsk (by decide)
      · subst hhm
        by_cases hrr : r = rd
        · subst hrr
          rw [dictGet_dictSet_self] at hget
          rw [← Option.some_inj.mp hget]
          exact not_lt.mp hc
        · rw [dictGet_dictSet_ne _ _ _ _ hrr] at hget
          exact hrb r v2 hrP hrX hget

/-- The state after LOADI A 5 runs on the fresh machine. -/
def hC2after : AssemblyHandler :=
  ⟨⟨2048, fun _ => 0⟩,
    [("A", 5), ("B", 0), ("C", 0), ("D", 0), ("P", 1), ("X", 1)],
    [], false, []⟩

/-- C2 witness: the amended bound theorem applied to LOADI A 5 on the
fresh machine, read back at register A. -/
theorem C2_register_bound_witness : |(5 : Int)| ≤ BOUND := by
  have hmb : ∀ n, |(initHandler []).memory.get n| ≤ BOUND := by
    intro n
    show |(0 : Int)| ≤ BOUND
    decide
  have hrb : ∀ r v, r ≠ "P" → r ≠ "X" →
      dictGet (initHandler []).short_term r = some v → |v| ≤ BOUND := by
    intro r v h1 h2 hg
    simp only [initHandler, dictGet] at hg
    repeat' split at hg
    all_goals first
      | (rw [← Option.some_inj.mp hg]; decide)
      | exact absurd hg (by simp)
  exact C2_register_bound "LOADI A 5" "LOADI" (initHandler []) hC2after rfl
    (by decide) hmb hrb rfl rfl "A" 5 (by decide) (by decide) rfl

/-! ### Claim C3 -/

/-- C3 amended: every fault path skips the trailing P and X increments,
except DIV with a zero divisor: it raises the error flag and prints the
diagnostic but still increments P and X by 1.  The conjuncts cover, in
order: the DIV-zero exception; DIV overflow (skips); the shape of a
faulted state; the LOADI, ADDI, STOREA and STORE overflow faults, which
leave the whole state except error and output untouched; the ADD, SUB and
MUL overflow faults, which skip the increments so P and X keep their
values whenever they are not the written destination; and HALT, which
also returns before the increments. -/
theorem C3_fault_increments :
    (∀ (cmd rd rs : String) (p x : Int) (h h2 : AssemblyHandler),
      pySplit cmd = ["DIV", rd, rs] →
      dictGet h.short_term rs = some 0 →
      dictGet h.short_term "P" = some p →
      dictGet h.short_term "X" = some x →
      parse_command cmd h = some h2 →
      h2.error = true ∧ h2.output = h.output ++ [FAULTMSG] ∧
        dictGet h2.short_term "P" = some (p + 1) ∧
        dictGet h2.short_term "X" = some (x + 1)) ∧
    (∀ (cmd rd rs : String) (a b : Int) (h h2 : AssemblyHandler),
      pySplit cmd = ["DIV", rd, rs] →
      dictGet h.short_term rs = some b → b ≠ 0 →
      dictGet h.short_term rd = some a → BOUND < |Int.fdiv a b| →
      parse_command cmd h = some h2 →
      h2.error = true ∧ h2.output = h.output ++ [FAULTMSG] ∧
        (rd ≠ "P" → dictGet h2.short_term "P" = dictGet h.short_term "P") ∧
        (rd ≠ "X" → dictGet h2.short_term "X" = dictGet h.short_term "X")) ∧
    (∀ h : AssemblyHandler, (faulted h).error = true ∧
      (faulted h).short_term = h.short_term ∧
      (faulted h).memory = h.memory ∧
      (faulted h).output = h.output ++ [FAULTMSG]) ∧
    (∀ (cmd r s : String) (v : Int) (h : AssemblyHandler),
      pySplit cmd = ["LOADI", r, s] → pyToInt s = some v → BOUND < |v| →
      parse_command cmd h = some (faulted h)) ∧
    (∀ (cmd r s : String) (v : Int) (h : AssemblyHandler),
      pySplit cmd = ["ADDI", r, s] → pyToInt s = some v → BOUND < |v| →
      parse_command cmd h = some (faulted h)) ∧
    (∀ (cmd r s : String) (i v : Int) (h : AssemblyHandler),
      pySplit cmd = ["STOREA", r, s] → pyToInt s = some i →
      dictGet h.short_term r = some v → BOUND < |v| →
      parse_command cmd h = some (faulted h)) ∧
    (∀ (cmd r : String) (i v : Int) (h : AssemblyHandler),
      pySplit cmd = ["STORE", r] → dictGet h.short_term "A" = some i →
      dictGet h.short_term r = some v → BOUND < |v| →
      parse_command cmd h = some (faulted h)) ∧
    (∀ (cmd rd rs : String) (a b : Int) (h h2 : AssemblyHandler),
      pySplit cmd = ["ADD", rd, rs] →
      dictGet h.short_term rd = some a →
      dictGet h.short_term rs = some b → BOUND < |a + b| →
      parse_command cmd h = some h2 →
      h2.error = true ∧ h2.output = h.output ++ [FAULTMSG] ∧
        (rd ≠ "P" → dictGet h2.short_term "P" = dictGet h.short_term "P") ∧
        (rd ≠ "X" → dictGet h2.short_term "X" = dictGet h.short_term "X")) ∧
    (∀ (cmd rd rs : String) (a b : Int) (h h2 : AssemblyHandler),
      pySplit cmd = ["SUB", rd, rs] →
      dictGet h.short_term rd = some a →
      dictGet h.short_term rs = some b → BOUND < |a - b| →
      parse_command cmd h = some h2 →
      h2.error = true ∧ h2.output = h.output ++ [FAULTMSG] ∧
        (rd ≠ "P" → dictGet h2.short_term "P" = dictGet h.short_term "P") ∧
        (rd ≠ "X" → dictGet h2.short_term "X" = dictGet h.short_term "X")) ∧
    (∀ (cmd rd rs : String) (a b : Int) (h h2 : AssemblyHandler),
      pySplit cmd = ["MUL", rd, rs] →
      dictGet h.short_term rd = some a →
      dictGet h.short_term rs = some b → BOUND < |a * b| →
      parse_command cmd h = some h2 →
      h2.error = true ∧ h2.output = h.output ++ [FAULTMSG] ∧
        (rd ≠ "P" → dictGet h2.short_term "P" = dictGet h.short_term "P") ∧
        (rd ≠ "X" → dictGet h2.short_term "X" = dictGet h.short_term "X")) ∧
    (∀ (cmd : String) (h : AssemblyHandler), pySplit cmd = ["HALT"] →
      parse_command cmd h =
        some { h with error := true, output := h.output ++ [HALTMSG] }) := by
  refine ⟨?_, ?_, fun h => ⟨rfl, rfl, rfl, rfl⟩, parse_LOADI_fault,
    parse_ADDI_fault, ?_, ?_, ?_, ?_, ?_, parse_HALT⟩
  · intro cmd rd rs p x h h2 hs hb hp hx hpc
    rw [parse_DIV_zero cmd rd rs h hs hb] at hpc
    refine ⟨?_, ?_, ?_, ?_⟩
    · rw [(incPX_frame _ _ hpc).2.2.1]; rfl
    · rw [(incPX_frame _ _ hpc).2.2.2]; rfl
    · exact incPX_getP _ _ hpc p hp
    · exact incPX_getX _ _ hpc x hx
  · intro cmd rd rs a b h h2 hs hb hb0 ha hc hpc
    rw [parse_DIV_fault cmd rd rs a b h hs hb hb0 ha hc] at hpc
    obtain rfl := Option.some_inj.mp hpc
    refine ⟨rfl, rfl, ?_, ?_⟩
    · intro hrdP
      exact dictGet_dictSet_ne _ _ _ _ (fun e => hrdP e.symm)
    · intro hrdX
      exact dictGet_dictSet_ne _ _ _ _ (fun e => hrdX e.symm)
  · intro cmd r s i v h hs hn hv hb
    exact parse_STOREA_fault cmd r s i v h hs hn hv hb
  · intro cmd r i v h hs ha hv hb
    exact parse_STORE_fault cmd r i v h hs ha hv hb
  · intro cmd rd rs a b h h2 hs ha hb hc hpc
    rw [parse_ADD_fault cmd rd rs a b h hs ha hb hc] at hpc
    obtain rfl := Option.some_inj.mp hpc
    refine ⟨rfl, rfl, ?_, ?_⟩
    · intro hrdP
      exact dictGet_dictSet_ne _ _ _ _ (fun e => hrdP e.symm)
    · intro hrdX
      exact dictGet_dictSet_ne _ _ _ _ (fun e => hrdX e.symm)
  · intro cmd rd rs a b h h2 hs ha hb hc hpc
    rw [parse_SUB_fault cmd rd rs a b h hs ha hb hc] at hpc
    obtain rfl := Option.some_inj.mp hpc
    refine ⟨rfl, rfl, ?_, ?_⟩
    · intro hrdP
      exact dictGet_dictSet_ne _ _ _ _ (fun e => hrdP e.symm)
    · intro hrdX
      exact dictGet_dictSet_ne _ _ _ _ (fun e => hrdX e.symm)
  · intro cmd rd rs a b h h2 hs ha hb hc hpc
    rw [parse_MUL_fault cmd rd rs a b h hs ha hb hc] at hpc
    obtain rfl := Option.some_inj.mp hpc
    refine ⟨rfl, rfl, ?_, ?_⟩
    · intro hrdP
      exact dictGet_dictSet_ne _ _ _ _ (fun e => hrdP e.symm)
    · intro hrdX
      exact dictGet_dictSet_ne _ _ _ _ (fun e => hrdX e.symm)

/-- The state after DIV A B runs on the fresh machine (B is zero). -/
def hC3after : AssemblyHandler :=
  ⟨⟨2048, fun _ => 0⟩,
    [("A", 0), ("B", 0), ("C", 0), ("D", 0), ("P", 1), ("X", 1)],
    [], true, [FAULTMSG]⟩

/-- C3 witness: the DIV-zero conjunct applied to DIV A B on the fresh
machine: the error flag rises, the diagnostic is printed, and P and X
still advance to 1. -/
theorem C3_fault_increments_witness :
    hC3after.error = true ∧ hC3after.output = [] ++ [FAULTMSG] ∧
      dictGet hC3after.short_term "P" = some (0 + 1) ∧
      dictGet hC3after.short_term "X" = some (0 + 1) :=
  C3_fault_increments.1 "DIV A B" "A" "B" 0 0 (initHandler []) hC3after
    rfl rfl rfl rfl rfl

/-! ### Claim C4 -/

/-- C4 amended: LOADI, ADDI, STOREA and STORE check before writing, so on
their overflow faults the registers (and for the stores, the memory) are
unchanged; ADD, SUB, MUL and DIV check after writing, so the fault is
reported but the destination register already holds the out-of-range
result; and J performs no overflow check at all on P. -/
theorem C4_check_after_write :
    (∀ (cmd r s : String) (v : Int) (h h2 : AssemblyHandler),
      pySplit cmd = ["LOADI", r, s] → pyToInt s = some v → BOUND < |v| →
      parse_command cmd h = some h2 →
      h2.short_term = h.short_term ∧ h2.memory = h.memory ∧
        h2.error = true) ∧
    (∀ (cmd r s : String) (v : Int) (h h2 : AssemblyHandler),
      pySplit cmd = ["ADDI", r, s] → pyToInt s = some v → BOUND < |v| →
      parse_command cmd h = some h2 →
      h2.short_term = h.short_term ∧ h2.memory = h.memory ∧
        h2.error = true) ∧
    (∀ (cmd r s : String) (i v : Int) (h h2 : AssemblyHandler),
      pySplit cmd = ["STOREA", r, s] → pyToInt s = some i →
      dictGet h.short_term r = some v → BOUND < |v| →
      parse_command cmd h = some h2 →
      h2.short_term = h.short_term ∧ h2.memory = h.memory ∧
        h2.error = true) ∧
    (∀ (cmd r : String) (i v : Int) (h h2 : AssemblyHandler),
      pySplit cmd = ["STORE", r] → dictGet h.short_term "A" = some i →
      dictGet h.short_term r = some v → BOUND < |v| →
      parse_command cmd h = some h2 →
      h2.short_term = h.short_term ∧ h2.memory = h.memory ∧
        h2.error = true) ∧
    (∀ (cmd rd rs : String) (a b : Int) (h h2 : AssemblyHandler),
      pySplit cmd = ["ADD", rd, rs] →
      dictGet h.short_term rd = some a →
      dictGet h.short_term rs = some b → BOUND < |a + b| →
      parse_command cmd h = some h2 →
      h2.error = true ∧ dictGet h2.short_term rd = some (a + b)) ∧
    (∀ (cmd rd rs : String) (a b : Int) (h h2 : AssemblyHandler),
      pySplit cmd = ["SUB", rd, rs] →
      dictGet h.short_term rd = some a →
      dictGet h.short_term rs = some b → BOUND < |a - b| →
      parse_command cmd h = some h2 →
      h2.error = true ∧ dictGet h2.short_term rd = some (a - b)) ∧
    (∀ (cmd rd rs : String) (a b : Int) (h h2 : AssemblyHandler),
      pySplit cmd = ["MUL", rd, rs] →
      dictGet h.short_term rd = some a →
      dictGet h.short_term rs = some b → BOUND < |a * b| →
      parse_command cmd h = some h2 →
      h2.error = true ∧ dictGet h2.short_term rd = some (a * b)) ∧
    (∀ (cmd rd rs : String) (a b : Int) (h h2 : AssemblyHandler),
      pySplit cmd = ["DIV", rd, rs] →
      dictGet h.short_term rs = some b → b ≠ 0 →
      dictGet h.short_term rd = some a → BOUND < |Int.fdiv a b| →
      parse_command cmd h = some h2 →
      h2.error = true ∧ dictGet h2.short_term rd = some (Int.fdiv a b)) ∧
    (∀ (cmd s : String) (n p : Int) (h h2 : AssemblyHandler),
      pySplit cmd = ["J", s] → pyToInt s = some n →
      dictGet h.short_term "P" = some p →
      parse_command cmd h = some h2 →
      h2.error = h.error ∧ dictGet h2.short_term "P" = some (p + n + 1)) := by
  refine ⟨?_, ?_, ?_, ?_, ?_, ?_, ?_, ?_, ?_⟩
  · intro cmd r s v h h2 hs hn hb hpc
    rw [parse_LOADI_fault cmd r s v h hs hn hb] at hpc
    obtain rfl := Option.some_inj.mp hpc
    exact ⟨rfl, rfl, rfl⟩
  · intro cmd r s v h h2 hs hn hb hpc
    rw [parse_ADDI_fault cmd r s v h hs hn hb] at hpc
    obtain rfl := Option.some_inj.mp hpc
    exact ⟨rfl, rfl, rfl⟩
  · intro cmd r s i v h h2 hs hn hv hb hpc
    rw [parse_STOREA_fault cmd r s i v h hs hn hv hb] at hpc
    obtain rfl := Option.some_inj.mp hpc
    exact ⟨rfl, rfl, rfl⟩
  · intro cmd r i v h h2 hs ha hv hb hpc
    rw [parse_STORE_fault cmd r i v h hs ha hv hb] at hpc
    obtain rfl := Option.some_inj.mp hpc
    exact ⟨rfl, rfl, rfl⟩
  · intro cmd rd rs a b h h2 hs ha hb hc hpc
    rw [parse_ADD_fault cmd rd rs a b h hs ha hb hc] at hpc
    obtain rfl := Option.some_inj.mp hpc
    exact ⟨rfl, dictGet_dictSet_self _ _ _⟩
  · intro cmd rd rs a b h h2 hs ha hb hc hpc
    rw [parse_SUB_fault cmd rd rs a b h hs ha hb hc] at hpc
    obtain rfl := Option.some_inj.mp hpc
    exact ⟨rfl, dictGet_dictSet_self _ _ _⟩
  · intro cmd rd rs a b h h2 hs ha hb hc hpc
    rw [parse_MUL_fault cmd rd rs a b h hs ha hb hc] at hpc
    obtain rfl := Option.some_inj.mp hpc
    exact ⟨rfl, dictGet_dictSet_self _ _ _⟩
  · intro cmd rd rs a b h h2 hs hb hb0 ha hc hpc
    rw [parse_DIV_fault cmd rd rs a b h hs hb hb0 ha hc] at hpc
    obtain rfl := Option.some_inj.mp hpc
    exact ⟨rfl, dictGet_dictSet_self _ _ _⟩
  · intro cmd s n p h h2 hs hn hp hpc
    rw [parse_J cmd s n p h hs hn hp] at hpc
    refine ⟨(incPX_frame _ _ hpc).2.2.1, ?_⟩
    exact incPX_getP _ _ hpc (p + n) (dictGet_dictSet_self _ _ _)

/-- The state after J 4398046511105 runs on the fresh machine: P holds
2^42 + 2 with no fault. -/
def hC4after : AssemblyHandler :=
  ⟨⟨2048, fun _ => 0⟩,
    [("A", 0), ("B", 0), ("C", 0), ("D", 0), ("P", 4398046511106),
      ("X", 1)], [], false, []⟩

/-- C4 witness: the no-check-on-jumps conjunct applied to a jump whose
target magnitude exceeds 2^42: no fault is raised. -/
theorem C4_check_after_write_witness :
    hC4after.error = (initHandler []).error ∧
      dictGet hC4after.short_term "P" = some (0 + 4398046511105 + 1) :=
  C4_check_after_write.2.2.2.2.2.2.2.2 "J 4398046511105" "4398046511105"
    4398046511105 0 (initHandler []) hC4after rfl rfl rfl rfl

/-! ### Claim C5 -/

theorem parse_unknown (cmd op : String) (h : AssemblyHandler)
    (hop : (pySplit cmd).get? 0 = some op)
    (hne : op ∉ (["LOADA", "LOAD", "LOADI", "STOREA", "STORE", "MOVE",
      "ADDI", "ADD", "SUB", "MUL", "DIV", "J", "JR", "JZ", "JLT", "HALT",
      "PRINT"] : List String)) :
    parse_command cmd h = incPX h := by
  have hor : ¬ (op = "LOADA" ∨ op = "LOAD" ∨ op = "LOADI" ∨
      op = "STOREA" ∨ op = "STORE" ∨ op = "MOVE" ∨ op = "ADDI" ∨
      op = "ADD" ∨ op = "SUB" ∨ op = "MUL" ∨ op = "DIV" ∨ op = "J" ∨
      op = "JR" ∨ op = "JZ" ∨ op = "JLT" ∨ op = "HALT" ∨
      op = "PRINT") := by
    intro hc
    exact hne (by simpa using hc)
  push_neg at hor
  obtain ⟨e1, e2, e3, e4, e5, e6, e7, e8, e9, e10, e11, e12, e13, e14,
    e15, e16, e17⟩ := hor
  unfold parse_command parse_inner
  rw [hop]
  simp only [Option.some_bind]
  rw [if_neg e1, if_neg e2, if_neg e3, if_neg e4, if_neg e5, if_neg e6,
    if_neg e7, if_neg e8, if_neg e9, if_neg e10, if_neg e11, if_neg e12,
    if_neg e13, if_neg e14, if_neg e15, if_neg e16, if_neg e17]
  rfl

/-- C5: every successfully executed instruction performs the trailing
increments after its own effect.  The first six conjuncts cover the jump
opcodes: J and JR land at P + offset + 1, a taken JZ or JLT lands at
P + offset + 1, an untaken JZ or JLT lands at P + 1, and X advances by 1.
The remaining conjuncts cover every other success path one opcode at a
time — LOADA, LOAD, LOADI, STOREA, STORE, MOVE, ADDI, ADD, SUB, MUL, DIV,
PRINT, and the unrecognized-opcode fall-through — each concluding that P
and X advance by exactly 1 on top of the instruction effect (stated
alongside that effect), with no fault raised. -/
theorem C5_jump_lands_offset_plus_one :
    (∀ (cmd s : String) (n p x : Int) (h h2 : AssemblyHandler),
      pySplit cmd = ["J", s] → pyToInt s = some n →
      dictGet h.short_term "P" = some p →
      dictGet h.short_term "X" = some x →
      parse_command cmd h = some h2 →
      dictGet h2.short_term "P" = some (p + n + 1) ∧
        dictGet h2.short_term "X" = some (x + 1) ∧ h2.error = h.error) ∧
    (∀ (cmd r : String) (v p x : Int) (h h2 : AssemblyHandler),
      pySplit cmd = ["JR", r] → dictGet h.short_term r = some v →
      dictGet h.short_term "P" = some p →
      dictGet h.short_term "X" = some x →
      parse_command cmd h = some h2 →
      dictGet h2.short_term "P" = some (p + v + 1) ∧
        dictGet h2.short_term "X" = some (x + 1) ∧ h2.error = h.error) ∧
    (∀ (cmd r s : String) (n p x : Int) (h h2 : AssemblyHandler),
      pySplit cmd = ["JZ", r, s] → dictGet h.short_term r = some 0 →
      pyToInt s = some n →
      dictGet h.short_term "P" = some p →
      dictGet h.short_term "X" = some x →
      parse_command cmd h = some h2 →
      dictGet h2.short_term "P" = some (p + n + 1) ∧
        dictGet h2.short_term "X" = some (x + 1) ∧ h2.error = h.error) ∧
    (∀ (cmd r s : String) (v p x : Int) (h h2 : AssemblyHandler),
      pySplit cmd = ["JZ", r, s] → dictGet h.short_term r = some v → v ≠ 0 →
      dictGet h.short_term "P" = some p →
      dictGet h.short_term "X" = some x →
      parse_command cmd h = some h2 →
      dictGet h2.short_term "P" = some (p + 1) ∧
        dictGet h2.short_term "X" = some (x + 1) ∧ h2.error = h.error) ∧
    (∀ (cmd r1 r2 s : String) (v1 v2 n p x : Int) (h h2 : AssemblyHandler),
      pySplit cmd = ["JLT", r1, r2, s] →
      dictGet h.short_term r1 = some v1 →
      dictGet h.short_term r2 = some v2 → v1 < v2 → pyToInt s = some n →
      dictGet h.short_term "P" = some p →
      dictGet h.short_term "X" = some x →
      parse_command cmd h = some h2 →
      dictGet h2.short_term "P" = some (p + n + 1) ∧
        dictGet h2.short_term "X" = some (x + 1) ∧ h2.error = h.error) ∧
    (∀ (cmd r1 r2 s : String) (v1 v2 p x : Int) (h h2 : AssemblyHandler),
      pySplit cmd = ["JLT", r1, r2, s] →
      dictGet h.short_term r1 = some v1 →
      dictGet h.short_term r2 = some v2 → ¬ v1 < v2 →
      dictGet h.short_term "P" = some p →
      dictGet h.short_term "X" = some x →
      parse_command cmd h = some h2 →
      dictGet h2.short_term "P" = some (p + 1) ∧
        dictGet h2.short_term "X" = some (x + 1) ∧ h2.error = h.error) ∧
    (∀ (cmd r s : String) (i v p x : Int) (h h2 : AssemblyHandler),
      pySplit cmd = ["LOADA", r, s] → pyToInt s = some i →
      memRead h.memory i = some v → r ≠ "P" → r ≠ "X" →
      dictGet h.short_term "P" = some p →
      dictGet h.short_term "X" = some x →
      parse_command cmd h = some h2 →
      dictGet h2.short_term "P" = some (p + 1) ∧
        dictGet h2.short_term "X" = some (x + 1) ∧
        dictGet h2.short_term r = some v ∧ h2.error = h.error) ∧
    (∀ (cmd r : String) (i v p x : Int) (h h2 : AssemblyHandler),
      pySplit cmd = ["LOAD", r] → dictGet h.short_term "A" = some i →
      memRead h.memory i = some v → r ≠ "P" → r ≠ "X" →
      dictGet h.short_term "P" = some p →
      dictGet h.short_term "X" = some x →
      parse_command cmd h = some h2 →
      dictGet h2.short_term "P" = some (p + 1) ∧
        dictGet h2.short_term "X" = some (x + 1) ∧
        dictGet h2.short_term r = some v ∧ h2.error = h.error) ∧
    (∀ (cmd r s : String) (v p x : Int) (h h2 : AssemblyHandler),
      pySplit cmd = ["LOADI", r, s] → pyToInt s = some v →
      ¬ BOUND < |v| → r ≠ "P" → r ≠ "X" →
      dictGet h.short_term "P" = some p →
      dictGet h.short_term "X" = some x →
      parse_command cmd h = some h2 →
      dictGet h2.short_term "P" = some (p + 1) ∧
        dictGet h2.short_term "X" = some (x + 1) ∧
        dictGet h2.short_term r = some v ∧ h2.error = h.error) ∧
    (∀ (cmd r s : String) (i v p x : Int) (m : MemArray)
      (h h2 : AssemblyHandler),
      pySplit cmd = ["STOREA", r, s] → pyToInt s = some i →
      dictGet h.short_term r = some v → ¬ BOUND < |v| →
      memWrite h.memory i v = some m →
      dictGet h.short_term "P" = some p →
      dictGet h.short_term "X" = some x →
      parse_command cmd h = some h2 →
      dictGet h2.short_term "P" = some (p + 1) ∧
        dictGet h2.short_term "X" = some (x + 1) ∧
        h2.memory = m ∧ h2.error = h.error) ∧
    (∀ (cmd r : String) (i v p x : Int) (m : MemArray)
      (h h2 : AssemblyHandler),
      pySplit cmd = ["STORE", r] → dictGet h.short_term "A" = some i →
      dictGet h.short_term r = some v → ¬ BOUND < |v| →
      memWrite h.memory i v = some m →
      dictGet h.short_term "P" = some p →
      dictGet h.short_term "X" = some x →
      parse_command cmd h = some h2 →
      dictGet h2.short_term "P" = some (p + 1) ∧
        dictGet h2.short_term "X" = some (x + 1) ∧
        h2.memory = m ∧ h2.error = h.error) ∧
    (∀ (cmd rd rs : String) (v p x : Int) (h h2 : AssemblyHandler),
      pySplit cmd = ["MOVE", rd, rs] → dictGet h.short_term rs = some v →
      rd ≠ "P" → rd ≠ "X" →
      dictGet h.short_term "P" = some p →
      dictGet h.short_term "X" = some x →
      parse_command cmd h = some h2 →
      dictGet h2.short_term "P" = some (p + 1) ∧
        dictGet h2.short_term "X" = some (x + 1) ∧
        dictGet h2.short_term rd = some v ∧ h2.error = h.error) ∧
    (∀ (cmd r s : String) (v a p x : Int) (h h2 : AssemblyHandler),
      pySplit cmd = ["ADDI", r, s] → pyToInt s = some v →
      ¬ BOUND < |v| → dictGet h.short_term r = some a →
      r ≠ "P" → r ≠ "X" →
      dictGet h.short_term "P" = some p →
      dictGet h.short_term "X" = some x →
      parse_command cmd h = some h2 →
      dictGet h2.short_term "P" = some (p + 1) ∧
        dictGet h2.short_term "X" = some (x + 1) ∧
        dictGet h2.short_term r = some (a + v) ∧ h2.error = h.error) ∧
    (∀ (cmd rd rs : String) (a b p x : Int) (h h2 : AssemblyHandler),
      pySplit cmd = ["ADD", rd, rs] →
      dictGet h.short_term rd = some a →
      dictGet h.short_term rs = some b → ¬ BOUND < |a + b| →
      rd ≠ "P" → rd ≠ "X" →
      dictGet h.short_term "P" = some p →
      dictGet h.short_term "X" = some x →
      parse_command cmd h = some h2 →
      dictGet h2.short_term "P" = some (p + 1) ∧
        dictGet h2.short_term "X" = some (x + 1) ∧
        dictGet h2.short_term rd = some (a + b) ∧ h2.error = h.error) ∧
    (∀ (cmd rd rs : String) (a b p x : Int) (h h2 : AssemblyHandler),
      pySplit cmd = ["SUB", rd, rs] →
      dictGet h.short_term rd = some a →
      dictGet h.short_term rs = some b → ¬ BOUND < |a - b| →
      rd ≠ "P" → rd ≠ "X" →
      dictGet h.short_term "P" = some p →
      dictGet h.short_term "X" = some x →
      parse_command cmd h = some h2 →
      dictGet h2.short_term "P" = some (p + 1) ∧
        dictGet h2.short_term "X" = some (x + 1) ∧
        dictGet h2.short_term rd = some (a - b) ∧ h2.error = h.error) ∧
    (∀ (cmd rd rs : String) (a b p x : Int) (h h2 : AssemblyHandler),
      pySplit cmd = ["MUL", rd, rs] →
      dictGet h.short_term rd = some a →
      dictGet h.short_term rs = some b → ¬ BOUND < |a * b| →
      rd ≠ "P" → rd ≠ "X" →
      dictGet h.short_term "P" = some p →
      dictGet h.short_term "X" = some x →
      parse_command cmd h = some h2 →
      dictGet h2.short_term "P" = some (p + 1) ∧
        dictGet h2.short_term "X" = some (x + 1) ∧
        dictGet h2.short_term rd = some (a * b) ∧ h2.error = h.error) ∧
    (∀ (cmd rd rs : String) (a b p x : Int) (h h2 : AssemblyHandler),
      pySplit cmd = ["DIV", rd, rs] →
      dictGet h.short_term rs = some b → b ≠ 0 →
      dictGet h.short_term rd = some a → ¬ BOUND < |Int.fdiv a b| →
      rd ≠ "P" → rd ≠ "X" →
      dictGet h.short_term "P" = some p →
      dictGet h.short_term "X" = some x →
      parse_command cmd h = some h2 →
      dictGet h2.short_term "P" = some (p + 1) ∧
        dictGet h2.short_term "X" = some (x + 1) ∧
        dictGet h2.short_term rd = some (Int.fdiv a b) ∧
        h2.error = h.error) ∧
    (∀ (cmd r : String) (v p x : Int) (h h2 : AssemblyHandler),
      pySplit cmd = ["PRINT", r] → dictGet h.short_term r = some v →
      dictGet h.short_term "P" = some p →
      dictGet h.short_term "X" = some x →
      parse_command cmd h = some h2 →
      dictGet h2.short_term "P" = some (p + 1) ∧
        dictGet h2.short_term "X" = some (x + 1) ∧
        h2.output = h.output ++ [toString v] ∧ h2.error = h.error) ∧
    (∀ (cmd op : String) (p x : Int) (h h2 : AssemblyHandler),
      (pySplit cmd).get? 0 = some op →
      op ∉ (["LOADA", "LOAD", "LOADI", "STOREA", "STORE", "MOVE", "ADDI",
        "ADD", "SUB", "MUL", "DIV", "J", "JR", "JZ", "JLT", "HALT",
        "PRINT"] : List String) →
      dictGet h.short_term "P" = some p →
      dictGet h.short_term "X" = some x →
      parse_command cmd h = some h2 →
      dictGet h2.short_term "P" = some (p + 1) ∧
        dictGet h2.short_term "X" = some (x + 1) ∧ h2.error = h.error) := by
  have hXP : ("X" : String) ≠ "P" := by decide
  refine ⟨?_, ?_, ?_, ?_, ?_, ?_, ?_, ?_, ?_, ?_, ?_, ?_, ?_, ?_, ?_, ?_,
    ?_, ?_, ?_⟩
  · intro cmd s n p x h h2 hs hn hp hx hpc
    rw [parse_J cmd s n p h hs hn hp] at hpc
    refine ⟨incPX_getP _ _ hpc (p + n) (dictGet_dictSet_self _ _ _), ?_,
      (incPX_frame _ _ hpc).2.2.1⟩
    refine incPX_getX _ _ hpc x ?_
    rw [dictGet_dictSet_ne _ _ _ _ hXP]
    exact hx
  · intro cmd r v p x h h2 hs hv hp hx hpc
    rw [parse_JR cmd r v p h hs hv hp] at hpc
    refine ⟨incPX_getP _ _ hpc (p + v) (dictGet_dictSet_self _ _ _), ?_,
      (incPX_frame _ _ hpc).2.2.1⟩
    refine incPX_getX _ _ hpc x ?_
    rw [dictGet_dictSet_ne _ _ _ _ hXP]
    exact hx
  · intro cmd r s n p x h h2 hs hv hn hp hx hpc
    rw [parse_JZ_taken cmd r s n p h hs hv hn hp] at hpc
    refine ⟨incPX_getP _ _ hpc (p + n) (dictGet_dictSet_self _ _ _), ?_,
      (incPX_frame _ _ hpc).2.2.1⟩
    refine incPX_getX _ _ hpc x ?_
    rw [dictGet_dictSet_ne _ _ _ _ hXP]
    exact hx
  · intro cmd r s v p x h h2 hs hv hv0 hp hx hpc
    rw [parse_JZ_skip cmd r s v h hs hv hv0] at hpc
    exact ⟨incPX_getP _ _ hpc p hp, incPX_getX _ _ hpc x hx,
      (incPX_frame _ _ hpc).2.2.1⟩
  · intro cmd r1 r2 s v1 v2 n p x h h2 hs hv1 hv2 hlt hn hp hx hpc
    rw [parse_JLT_taken cmd r1 r2 s v1 v2 n p h hs hv1 hv2 hlt hn hp] at hpc
    refine ⟨incPX_getP _ _ hpc (p + n) (dictGet_dictSet_self _ _ _), ?_,
      (incPX_frame _ _ hpc).2.2.1⟩
    refine incPX_getX _ _ hpc x ?_
    rw [dictGet_dictSet_ne _ _ _ _ hXP]
    exact hx
  · intro cmd r1 r2 s v1 v2 p x h h2 hs hv1 hv2 hlt hp hx hpc
    rw [parse_JLT_skip cmd r1 r2 s v1 v2 h hs hv1 hv2 hlt] at hpc
    exact ⟨incPX_getP _ _ hpc p hp, incPX_getX _ _ hpc x hx,
      (incPX_frame _ _ hpc).2.2.1⟩
  · intro cmd r s i v p x h h2 hs hn hv hrP hrX hp hx hpc
    rw [parse_LOADA cmd r s i v h hs hn hv] at hpc
    refine ⟨?_, ?_, ?_, (incPX_frame _ _ hpc).2.2.1⟩
    · refine incPX_getP _ _ hpc p ?_
      rw [dictGet_dictSet_ne _ _ _ _ (fun e => hrP e.symm)]
      exact hp
    · refine incPX_getX _ _ hpc x ?_
      rw [dictGet_dictSet_ne _ _ _ _ (fun e => hrX e.symm)]
      exact hx
    · rw [incPX_get_ne _ _ hpc r hrP hrX]
      exact dictGet_dictSet_self _ _ _
  · intro cmd r i v p x h h2 hs ha hv hrP hrX hp hx hpc
    rw [parse_LOAD cmd r i v h hs ha hv] at hpc
    refine ⟨?_, ?_, ?_, (incPX_frame _ _ hpc).2.2.1⟩
    · refine incPX_getP _ _ hpc p ?_
      rw [dictGet_dictSet_ne _ _ _ _ (fun e => hrP e.symm)]
      exact hp
    · refine incPX_getX _ _ hpc x ?_
      rw [dictGet_dictSet_ne _ _ _ _ (fun e => hrX e.symm)]
      exact hx
    · rw [incPX_get_ne _ _ hpc r hrP hrX]
      exact dictGet_dictSet_self _ _ _
  · intro cmd r s v p x h h2 hs hn hb hrP hrX hp hx hpc
    rw [parse_LOADI_ok cmd r s v h hs hn hb] at hpc
    refine ⟨?_, ?_, ?_, (incPX_frame _ _ hpc).2.2.1⟩
    · refine incPX_getP _ _ hpc p ?_
      rw [dictGet_dictSet_ne _ _ _ _ (fun e => hrP e.symm)]
      exact hp
    · refine incPX_getX _ _ hpc x ?_
      rw [dictGet_dictSet_ne _ _ _ _ (fun e => hrX e.symm)]
      exact hx
    · rw [incPX_get_ne _ _ hpc r hrP hrX]
      exact dictGet_dictSet_self _ _ _
  · intro cmd r s i v p x m h h2 hs hn hv hb hm hp hx hpc
    rw [parse_STOREA_ok cmd r s i v m h hs hn hv hb hm] at hpc
    exact ⟨incPX_getP _ _ hpc p hp, incPX_getX _ _ hpc x hx,
      (incPX_frame _ _ hpc).1, (incPX_frame _ _ hpc).2.2.1⟩
  · intro cmd r i v p x m h h2 hs ha hv hb hm hp hx hpc
    rw [parse_STORE_ok cmd r i v m h hs ha hv hb hm] at hpc
    exact ⟨incPX_getP _ _ hpc p hp, incPX_getX _ _ hpc x hx,
      (incPX_frame _ _ hpc).1, (incPX_frame _ _ hpc).2.2.1⟩
  · intro cmd rd rs v p x h h2 hs hv hrP hrX hp hx hpc
    rw [parse_MOVE cmd rd rs v h hs hv] at hpc
    refine ⟨?_, ?_, ?_, (incPX_frame _ _ hpc).2.2.1⟩
    · refine incPX_getP _ _ hpc p ?_
      rw [dictGet_dictSet_ne _ _ _ _ (fun e => hrP e.symm)]
      exact hp
    · refine incPX_getX _ _ hpc x ?_
      rw [dictGet_dictSet_ne _ _ _ _ (fun e => hrX e.symm)]
      exact hx
    · rw [incPX_get_ne _ _ hpc rd hrP hrX]
      exact dictGet_dictSet_self _ _ _
  · intro cmd r s v a p x h h2 hs hn hb ha hrP hrX hp hx hpc
    rw [parse_ADDI_ok cmd r s v a h hs hn hb ha] at hpc
    refine ⟨?_, ?_, ?_, (incPX_frame _ _ hpc).2.2.1⟩
    · refine incPX_getP _ _ hpc p ?_
      rw [dictGet_dictSet_ne _ _ _ _ (fun e => hrP e.symm)]
      exact hp
    · refine incPX_getX _ _ hpc x ?_
      rw [dictGet_dictSet_ne _ _ _ _ (fun e => hrX e.symm)]
      exact hx
    · rw [incPX_get_ne _ _ hpc r hrP hrX]
      exact dictGet_dictSet_self _ _ _
  · intro cmd rd rs a b p x h h2 hs ha hb hc hrP hrX hp hx hpc
    rw [parse_ADD_ok cmd rd rs a b h hs ha hb hc] at hpc
    refine ⟨?_, ?_, ?_, (incPX_frame _ _ hpc).2.2.1⟩
    · refine incPX_getP _ _ hpc p ?_
      rw [dictGet_dictSet_ne _ _ _ _ (fun e => hrP e.symm)]
      exact hp
    · refine incPX_getX _ _ hpc x ?_
      rw [dictGet_dictSet_ne _ _ _ _ (fun e => hrX e.symm)]
      exact hx
    · rw [incPX_get_ne _ _ hpc rd hrP hrX]
      exact dictGet_dictSet_self _ _ _
  · intro cmd rd rs a b p x h h2 hs ha hb hc hrP hrX hp hx hpc
    rw [parse_SUB_ok cmd rd rs a b h hs ha hb hc] at hpc
    refine ⟨?_, ?_, ?_, (incPX_frame _ _ hpc).2.2.1⟩
    · refine incPX_getP _ _ hpc p ?_
      rw [dictGet_dictSet_ne _ _ _ _ (fun e => hrP e.symm)]
      exact hp
    · refine incPX_getX _ _ hpc x ?_
      rw [dictGet_dictSet_ne _ _ _ _ (fun e => hrX e.symm)]
      exact hx
    · rw [incPX_get_ne _ _ hpc rd hrP hrX]
      exact dictGet_dictSet_self _ _ _
  · intro cmd rd rs a b p x h h2 hs ha hb hc hrP hrX hp hx hpc
    rw [parse_MUL_ok cmd rd rs a b h hs ha hb hc] at hpc
    refine ⟨?_, ?_, ?_, (incPX_frame _ _ hpc).2.2.1⟩
    · refine incPX_getP _ _ hpc p ?_
      rw [dictGet_dictSet_ne _ _ _ _ (fun e => hrP e.symm)]
      exact hp
    · refine incPX_getX _ _ hpc x ?_
      rw [dictGet_dictSet_ne _ _ _ _ (fun e => hrX e.symm)]
      exact hx
    · rw [incPX_get_ne _ _ hpc rd hrP hrX]
      exact dictGet_dictSet_self _ _ _
  · intro cmd rd rs a b p x h h2 hs hbv hb0 ha hc hrP hrX hp hx hpc
    rw [parse_DIV_ok cmd rd rs a b h hs hbv hb0 ha hc] at hpc
    refine ⟨?_, ?_, ?_, (incPX_frame _ _ hpc).2.2.1⟩
    · refine incPX_getP _ _ hpc p ?_
      rw [dictGet_dictSet_ne _ _ _ _ (fun e => hrP e.symm)]
      exact hp
    · refine incPX_getX _ _ hpc x ?_
      rw [dictGet_dictSet_ne _ _ _ _ (fun e => hrX e.symm)]
      exact hx
    · rw [incPX_get_ne _ _ hpc rd hrP hrX]
      exact dictGet_dictSet_self _ _ _
  · intro cmd r v p x h h2 hs hv hp hx hpc
    rw [parse_PRINT cmd r v h hs hv] at hpc
    exact ⟨incPX_getP _ _ hpc p hp, incPX_getX _ _ hpc x hx,
      (incPX_frame _ _ hpc).2.2.2.trans rfl,
      (incPX_frame _ _ hpc).2.2.1⟩
  · intro cmd op p x h h2 hop hne hp hx hpc
    rw [parse_unknown cmd op h hop hne] at hpc
    exact ⟨incPX_getP _ _ hpc p hp, incPX_getX _ _ hpc x hx,
      (incPX_frame _ _ hpc).2.2.1⟩

/-- The state after J 5 runs on the fresh machine. -/
def hC5after : AssemblyHandler :=
  ⟨⟨2048, fun _ => 0⟩,
    [("A", 0), ("B", 0), ("C", 0), ("D", 0), ("P", 6), ("X", 1)],
    [], false, []⟩

/-- C5 witness: the J conjunct applied to J 5 on the fresh machine: the
jump lands at 0 + 5 + 1 and X advances to 1. -/
theorem C5_jump_lands_offset_plus_one_witness :
    dictGet hC5after.short_term "P" = some (0 + 5 + 1) ∧
      dictGet hC5after.short_term "X" = some (0 + 1) ∧
      hC5after.error = (initHandler []).error :=
  C5_jump_lands_offset_plus_one.1 "J 5" "5" 5 0 0 (initHandler [])
    hC5after rfl rfl rfl rfl rfl


/-! ### Claim C7 -/

/-- C7 amended: the register file starts as exactly the six slots A, B, C,
D, P, X, all zero; no instruction execution ever removes a slot; and a
slot can be added only for a name that appears literally in the executed
command text (an unknown register name used as a write destination
silently creates a new slot, as the counterexample shows). -/
theorem C7_register_slots :
    (∀ cmds, (initHandler cmds).short_term =
      [("A", 0), ("B", 0), ("C", 0), ("D", 0), ("P", 0), ("X", 0)]) ∧
    (∀ (cmd : String) (h h2 : AssemblyHandler) (r : String),
      parse_command cmd h = some h2 →
      (dictGet h.short_term r).isSome = true →
      (dictGet h2.short_term r).isSome = true) ∧
    (∀ (cmd : String) (h h2 : AssemblyHandler) (r : String),
      parse_command cmd h = some h2 →
      (dictGet h2.short_term r).isSome = true →
      (dictGet h.short_term r).isSome = true ∨ r ∈ pySplit cmd) :=
  ⟨fun _ => rfl,
   fun cmd h h2 r H hr => parse_command_keys_mono cmd h h2 H r hr,
   fun cmd h h2 r H hr => parse_command_keys_sub cmd h h2 H r hr⟩

/-- C7 witness: the no-slot-removed conjunct applied to LOADI A 5 on the
fresh machine at slot A. -/
theorem C7_register_slots_witness :
    (dictGet hC2after.short_term "A").isSome = true :=
  C7_register_slots.2.1 "LOADI A 5" (initHandler []) hC2after "A" rfl rfl

/-! ### Claims C9 and C10: the execute loop -/

theorem execStep_eq_cont (h h2 : AssemblyHandler) (p x : Int) (cmd : String)
    (hp : dictGet h.short_term "P" = some p)
    (hcond : p < (h.commands.length : Int)) (he : h.error = false)
    (hfetch : pyListGet h.commands p = some cmd)
    (hrange : ¬ (p < 0 ∨ 10000 ≤ p))
    (hx : dictGet h.short_term "X" = some x) (hxg : ¬ 10 ^ 6 < x)
    (hpc : parse_command cmd h = some h2) :
    execStep h = .cont h2 := by
  unfold execStep
  simp only [hp, hfetch, hx, hpc]
  rw [if_pos ⟨hcond, he⟩, if_neg hrange, if_neg hxg]

theorem execStep_eq_guardX (h : AssemblyHandler) (p x : Int) (cmd : String)
    (hp : dictGet h.short_term "P" = some p)
    (hcond : p < (h.commands.length : Int)) (he : h.error = false)
    (hfetch : pyListGet h.commands p = some cmd)
    (hrange : ¬ (p < 0 ∨ 10000 ≤ p))
    (hx : dictGet h.short_term "X" = some x) (hxg : 10 ^ 6 < x) :
    execStep h = .done (faulted h) := by
  unfold execStep
  simp only [hp, hfetch, hx]
  rw [if_pos ⟨hcond, he⟩, if_neg hrange, if_pos hxg]

/-- The machine state after k dispatches of the one-line loop J -1. -/
def stC9 (k : Nat) : AssemblyHandler :=
  ⟨⟨2048, fun _ => 0⟩,
    [("A", 0), ("B", 0), ("C", 0), ("D", 0), ("P", 0), ("X", (k : Int))],
    ["J -1"], false, []⟩

theorem stC9_parse (k : Nat) :
    parse_command "J -1" (stC9 k) = some (stC9 (k + 1)) := by
  rw [parse_J "J -1" "-1" (-1) 0 (stC9 k) rfl rfl rfl]
  rw [incPX_eq _ (0 + -1) (k : Int) (dictGet_dictSet_self _ _ _) ?hX]
  case hX =>
    rw [dictGet_dictSet_ne _ _ _ _ (by decide : ("X" : String) ≠ "P")]
    rfl
  congr 1

theorem stC9_step (k : Nat) (hk : k ≤ 1000000) :
    execStep (stC9 k) = .cont (stC9 (k + 1)) := by
  refine execStep_eq_cont (stC9 k) (stC9 (k + 1)) 0 (k : Int) "J -1" rfl
    (by norm_num [stC9]) rfl rfl (by norm_num) rfl ?_ (stC9_parse k)
  have hk2 : (k : Int) ≤ 1000000 := by exact_mod_cast hk
  norm_num
  omega

theorem stC9_guard (k : Nat) (hk : 1000000 < k) :
    execStep (stC9 k) = .done (faulted (stC9 k)) := by
  refine execStep_eq_guardX (stC9 k) 0 (k : Int) "J -1" rfl
    (by norm_num [stC9]) rfl rfl (by norm_num) rfl ?_
  have hk2 : (1000000 : Int) < (k : Int) := by exact_mod_cast hk
  norm_num
  omega

theorem C9_run_aux : ∀ m k : Nat, k + m = 1000002 → k ≤ 1000001 →
    execute m (stC9 k) = .done (faulted (stC9 1000001)) := by
  intro m
  induction m with
  | zero => intro k hsum hk; omega
  | succ n ih =>
    intro k hsum hk
    by_cases hk6 : k ≤ 1000000
    · have hstep := stC9_step k hk6
      show execute (n + 1) (stC9 k) = _
      simp only [execute, hstep]
      exact ih (k + 1) (by omega) (by omega)
    · have hk1 : k = 1000001 := by omega
      subst hk1
      have hg := stC9_guard 1000001 (by norm_num)
      show execute (n + 1) (stC9 1000001) = _
      simp only [execute, hg]

/-- C9: the one-line tight loop J -1 re-executes itself (the offset -1
plus the trailing increment leave P at 0) until the step-limit guard
fires: after exactly 1000002 loop iterations the machine is halted with
the error flag set, the single fault diagnostic printed, and X at
1000001, which exceeds 10^6.  In particular this program terminates. -/
theorem C9_step_limit :
    execute 1000002 (initHandler ["J -1"]) =
      .done (faulted (stC9 1000001)) ∧
    (faulted (stC9 1000001)).error = true ∧
    (faulted (stC9 1000001)).output = [FAULTMSG] ∧
    dictGet (faulted (stC9 1000001)).short_term "X" = some 1000001 ∧
    (10 : Int) ^ 6 < 1000001 := by
  refine ⟨?_, rfl, rfl, rfl, by norm_num⟩
  have hinit : initHandler ["J -1"] = stC9 0 := rfl
  rw [hinit]
  exact C9_run_aux 1000002 0 rfl (by norm_num)

/-- The loop state with P at 1 (about to run J -2) and X at 1. -/
def st10A : AssemblyHandler :=
  ⟨⟨2048, fun _ => 0⟩,
    [("A", 0), ("B", 0), ("C", 0), ("D", 0), ("P", 1), ("X", 1)],
    ["LOADI X 0", "J -2"], false, []⟩

/-- The loop state with P back at 0 (about to run LOADI X 0) and X at 2. -/
def st10B : AssemblyHandler :=
  ⟨⟨2048, fun _ => 0⟩,
    [("A", 0), ("B", 0), ("C", 0), ("D", 0), ("P", 0), ("X", 2)],
    ["LOADI X 0", "J -2"], false, []⟩

theorem st10_step0 :
    execStep (initHandler ["LOADI X 0", "J -2"]) = .cont st10A := rfl

theorem st10_stepA : execStep st10A = .cont st10B := rfl

theorem st10_stepB : execStep st10B = .cont st10A := rfl

theorem C10_aux : ∀ n : Nat,
    (∃ h2, execute n st10A = .cont h2 ∧ h2.error = false) ∧
    (∃ h2, execute n st10B = .cont h2 ∧ h2.error = false) := by
  intro n
  induction n with
  | zero => exact ⟨⟨st10A, rfl, rfl⟩, ⟨st10B, rfl, rfl⟩⟩
  | succ n ih =>
    constructor
    · show ∃ h2, execute (n + 1) st10A = .cont h2 ∧ h2.error = false
      simp only [execute, st10_stepA]
      exact ih.2
    · show ∃ h2, execute (n + 1) st10B = .cont h2 ∧ h2.error = false
      simp only [execute, st10_stepB]
      exact ih.1

/-- C10: the step-limit guard reads the user-writable register X, so the
two-line program LOADI X 0; J -2 resets X on every pass and the execute
loop never reaches a terminal state: after any number of iterations it is
still running with the error flag down. -/
theorem C10_unbounded_loop :
    ∀ n : Nat, ∃ h2,
      execute n (initHandler ["LOADI X 0", "J -2"]) = .cont h2 ∧
        h2.error = false := by
  intro n
  cases n with
  | zero => exact ⟨initHandler ["LOADI X 0", "J -2"], rfl, rfl⟩
  | succ n =>
    show ∃ h2, execute (n + 1) (initHandler ["LOADI X 0", "J -2"]) =
      .cont h2 ∧ h2.error = false
    simp only [execute, st10_step0]
    exact (C10_aux n).1

/-- C10 witness: after five iterations the loop is still running. -/
theorem C10_unbounded_loop_witness :
    ∃ h2, execute 5 (initHandler ["LOADI X 0", "J -2"]) = .cont h2 ∧
      h2.error = false :=
  C10_unbounded_loop 5
